import Mathlib

set_option maxRecDepth 10000

/-!
A verification development for a configurable-width CPU emulator written in
Rust. The repository contains several width-specific variants of the same
engine; this file gives a shallow embedding of the variants that carry the
design content:

- `Till128`: the `u128`-backed engine (`till-128.rs`) with its textual
  `execute` entry point, widths 32/64/128, registers, flags and memory.
- `BrainOverflow`: the bignum-backed engine (`brain-overflow-all.rs`) with
  arbitrary `Custom` widths and its per-opcode methods.
- `TwosComp`: the two's-complement conversion helpers
  (the calculator source file).

Machine integers are modelled as `Nat` with explicit wrapping `% 2 ^ 128`
where the Rust code relies on `u128` overflow semantics, and as `Int` where
the source uses `i32`. A Rust `panic!` (out-of-bounds `Vec`/`HashMap` index,
shift-amount overflow) is modelled as a distinguished `panic` outcome that
is different from a returned `Err`.
-/

namespace OnBareMetal

/-! ### String helpers mirroring the Rust standard library -/

/-- Model of `char::to_uppercase` restricted to ASCII (opcodes are ASCII). -/
def charUpper (c : Char) : Char :=
  if 'a' ≤ c ∧ c ≤ 'z' then Char.ofNat (c.toNat - 32) else c

/-- Model of `str::to_uppercase` for ASCII strings. -/
def toUpperAscii (s : String) : String := String.mk (s.toList.map charUpper)

/-- Auxiliary worker for `splitWs`: accumulates the current token (reversed). -/
def splitWsAux : List Char → List Char → List String
  | [], acc => if acc.isEmpty then [] else [String.mk acc.reverse]
  | c :: cs, acc =>
    if c.isWhitespace then
      (if acc.isEmpty then [] else [String.mk acc.reverse]) ++ splitWsAux cs []
    else
      splitWsAux cs (c :: acc)

/-- Model of `str::split_whitespace().collect()`: whitespace-separated
tokens, never producing empty tokens. -/
def splitWs (s : String) : List String := splitWsAux s.toList []

/-- Model of `str::trim_end_matches(',')`: strips every trailing comma. -/
def trimEndCommas (s : String) : String :=
  String.mk ((s.toList.reverse.dropWhile (fun c => c = ',')).reverse)

/-- Model of `str::starts_with(char)`. -/
def firstCharIs (s : String) (c : Char) : Bool :=
  match s.toList with
  | c0 :: _ => c0 = c
  | [] => false

/-- Model of `str::starts_with("0x")`. -/
def startsHex (s : String) : Bool :=
  match s.toList with
  | '0' :: 'x' :: _ => true
  | _ => false

/-- Model of `&s[2..]` on an ASCII string: drop the first two characters. -/
def dropTwo (s : String) : String :=
  match s.toList with
  | _ :: _ :: rest => String.mk rest
  | _ => ""

/-! ### Integer literal parsing, mirroring `u128::from_str_radix` and
`str::parse::<u128>` (an optional leading `+`, then one or more digits of
the given radix; overflow past `u128::MAX` is a parse error). -/

/-- Digit value of a character in the given base, as in `char::to_digit`. -/
def digitVal (base : Nat) (c : Char) : Option Nat :=
  let d :=
    if '0' ≤ c ∧ c ≤ '9' then some (c.toNat - '0'.toNat)
    else if 'a' ≤ c ∧ c ≤ 'z' then some (c.toNat - 'a'.toNat + 10)
    else if 'A' ≤ c ∧ c ≤ 'Z' then some (c.toNat - 'A'.toNat + 10)
    else none
  match d with
  | some v => if v < base then some v else none
  | none => none

/-- Accumulate digits left to right; fail on any non-digit. -/
def parseDigitsAux (base : Nat) : List Char → Nat → Option Nat
  | [], acc => some acc
  | c :: cs, acc =>
    match digitVal base c with
    | some d => parseDigitsAux base cs (acc * base + d)
    | none => none

/-- Parse an unsigned `u128` literal in the given base: optional `+` sign,
then a nonempty digit string; values `≥ 2 ^ 128` are rejected (overflow). -/
def parseLiteral (base : Nat) (s : String) : Option Nat :=
  let cs := s.toList
  let cs := match cs with
    | '+' :: rest => rest
    | other => other
  match cs with
  | [] => none
  | _ =>
    match parseDigitsAux base cs 0 with
    | some v => if v < 2 ^ 128 then some v else none
    | none => none

/-- Names of the four condition flags, as initialized by every variant. -/
def flagNames : List String := ["ZERO", "CARRY", "OVERFLOW", "SIGN"]

/-- Register naming convention `"R" ++ index`. -/
def regName (i : Nat) : String := "R" ++ toString i

/-- Pointwise update of a string-keyed map, modelling `HashMap::insert`:
the key is added when absent and overwritten when present. -/
def insertStore (m : String → Option Nat) (k : String) (v : Nat) :
    String → Option Nat :=
  fun s => if s = k then some v else m s

/-- The same map update for i32-valued registers. -/
def insertStoreI (m : String → Option Int) (k : String) (v : Int) :
    String → Option Int :=
  fun s => if s = k then some v else m s

/-! ### Checked `i32` arithmetic, for the sources that store `i32`
(`instructions_set.rs` and the two's-complement calculator). Overflow of
`+`, `-`, `*` and of a shift amount is the debug-build panic, modelled as
`none`; plain bit-shifting of value bits wraps. -/

/-- Checked i32 result: `some` iff the value fits in `i32`, else the
arithmetic-overflow panic. -/
def i32Chk (x : Int) : Option Int :=
  if -(2 ^ 31) ≤ x ∧ x < 2 ^ 31 then some x else none

/-- Two's-complement truncation of an integer into the `i32` value range
`[-2^31, 2^31)`, as performed by a value-wrapping bit operation. -/
def i32Wrap (x : Int) : Int := (x + 2 ^ 31) % 2 ^ 32 - 2 ^ 31

/-- `1 << n` on i32: a shift amount `≥ 32` panics; the shifted value
itself wraps bitwise (`1 << 31` is `i32::MIN`, without a panic). -/
def i32Shl1 (n : Nat) : Option Int :=
  if 32 ≤ n then none else some (i32Wrap (2 ^ n))

namespace Till128

/-- The width configuration of `till-128.rs`. -/
inductive CpuWidth where
  | Bit32
  | Bit64
  | Bit128
deriving DecidableEq

/-- Bit count of a configured width. -/
def CpuWidth.bitsCount : CpuWidth → Nat
  | .Bit32 => 32
  | .Bit64 => 64
  | .Bit128 => 128

/-- `CPU::mask`: `(1 << 32) - 1`, `(1 << 64) - 1`, or `u128::MAX`. -/
def maskOf : CpuWidth → Nat
  | .Bit32 => 2 ^ 32 - 1
  | .Bit64 => 2 ^ 64 - 1
  | .Bit128 => 2 ^ 128 - 1

/-- The CPU state of `till-128.rs`: string-keyed registers holding `u128`
magnitudes, a fixed width, string-keyed boolean flags, and a flat memory. -/
structure CPU where
  registers : String → Option Nat
  bits : CpuWidth
  flags : String → Option Bool
  memory : List Nat

/-- `CPU::new`: registers `R1 ..= R{reg_count}` all zero, the four flags
all false, and `mem_size` zeroed memory cells. -/
def CPU.new (bits : CpuWidth) (reg_count mem_size : Nat) : CPU :=
  { registers := fun s =>
      if s ∈ (List.range reg_count).map (fun i => regName (i + 1)) then some 0
      else none
    bits := bits
    flags := fun s => if s ∈ flagNames then some false else none
    memory := List.replicate mem_size 0 }

/-- `CPU::mask` applied to the instance's configured width. -/
def CPU.mask (cpu : CPU) : Nat := maskOf cpu.bits

/-- `CPU::to_masked`: `value & self.mask()`. -/
def CPU.to_masked (cpu : CPU) (value : Nat) : Nat := value &&& cpu.mask

/-- `CPU::set_flag`: overwrite a flag only when its name already exists. -/
def CPU.set_flag (cpu : CPU) (name : String) (value : Bool) : CPU :=
  match cpu.flags name with
  | some _ =>
    { cpu with flags := fun s => if s = name then some value else cpu.flags s }
  | none => cpu

/-- `CPU::get_value`: a register operand (prefix `R`) is looked up, a `0x`
operand is parsed as hex, anything else as a decimal `u128` literal. -/
def CPU.get_value (cpu : CPU) (operand : String) : Except String Nat :=
  if firstCharIs operand 'R' then
    match cpu.registers operand with
    | some v => .ok v
    | none => .error ("Register " ++ operand ++ " not found")
  else if startsHex operand then
    match parseLiteral 16 (dropTwo operand) with
    | some v => .ok v
    | none => .error "Invalid hex"
  else
    match parseLiteral 10 operand with
    | some v => .ok v
    | none => .error "Invalid number"

/-- Result of one `execute` call: `Ok`, a returned `Err` message, or a Rust
panic (index out of bounds or shift-amount overflow). -/
inductive Outcome where
  | ok
  | err (msg : String)
  | panic
deriving DecidableEq

/-- The `u128` modulus. -/
def U128 : Nat := 2 ^ 128

/-- The register commit shared by every register-writing arm:
`self.registers.insert(reg, self.to_masked(res))`. -/
def commit (cpu : CPU) (reg : String) (res : Nat) : CPU :=
  { cpu with registers := insertStore cpu.registers reg (cpu.to_masked res) }

/-- `u128::overflowing_sub`: the wrapping difference modulo `2 ^ 128`. -/
def wrapSub (r val : Nat) : Nat :=
  if val ≤ r then r - val else r + U128 - val

/-- The `MOV` arm: `registers.insert(reg, to_masked(val))`. -/
def execMOV (cpu : CPU) (parts : List String) : Outcome × CPU :=
  match parts.get? 1, parts.get? 2 with
  | some p1, some p2 =>
    match cpu.get_value p2 with
    | .error e => (.err e, cpu)
    | .ok val =>
      (.ok, { cpu with registers := insertStore cpu.registers (trimEndCommas p1) (cpu.to_masked val) })
  | _, _ => (.panic, cpu)

/-- The `ADD` arm: `overflowing_add` on `u128`, `CARRY` and `ZERO` from the
pre-mask 128-bit result, then the masked result is stored. A missing
destination register panics (`self.registers[reg]`). -/
def execADD (cpu : CPU) (parts : List String) : Outcome × CPU :=
  match parts.get? 1, parts.get? 2 with
  | some p1, some p2 =>
    match cpu.get_value p2 with
    | .error e => (.err e, cpu)
    | .ok val =>
      match cpu.registers (trimEndCommas p1) with
      | none => (.panic, cpu)
      | some r =>
        (.ok, commit ((cpu.set_flag "CARRY" (decide (U128 ≤ r + val))).set_flag "ZERO"
          (decide ((r + val) % U128 = 0))) (trimEndCommas p1) ((r + val) % U128))
  | _, _ => (.panic, cpu)

/-- The `SUB` arm: `overflowing_sub` on `u128` (wrapping difference and a
borrow flag when the subtrahend exceeds the minuend). -/
def execSUB (cpu : CPU) (parts : List String) : Outcome × CPU :=
  match parts.get? 1, parts.get? 2 with
  | some p1, some p2 =>
    match cpu.get_value p2 with
    | .error e => (.err e, cpu)
    | .ok val =>
      match cpu.registers (trimEndCommas p1) with
      | none => (.panic, cpu)
      | some r =>
        (.ok, commit ((cpu.set_flag "CARRY" (decide (r < val))).set_flag "ZERO"
          (decide (wrapSub r val = 0))) (trimEndCommas p1) (wrapSub r val))
  | _, _ => (.panic, cpu)

/-- The `MUL` arm: `wrapping_mul` on `u128`, masked; no flag updates. -/
def execMUL (cpu : CPU) (parts : List String) : Outcome × CPU :=
  match parts.get? 1, parts.get? 2 with
  | some p1, some p2 =>
    match cpu.get_value p2 with
    | .error e => (.err e, cpu)
    | .ok val =>
      match cpu.registers (trimEndCommas p1) with
      | none => (.panic, cpu)
      | some r =>
        (.ok, commit cpu (trimEndCommas p1) ((r * val) % U128))
  | _, _ => (.panic, cpu)

/-- The `DIV` arm: a zero divisor is rejected with `Err` before the
destination register is even read. -/
def execDIV (cpu : CPU) (parts : List String) : Outcome × CPU :=
  match parts.get? 1, parts.get? 2 with
  | some p1, some p2 =>
    match cpu.get_value p2 with
    | .error e => (.err e, cpu)
    | .ok val =>
      if val = 0 then (.err "Division by zero", cpu)
      else
        match cpu.registers (trimEndCommas p1) with
        | none => (.panic, cpu)
        | some r =>
          (.ok, commit cpu (trimEndCommas p1) (r / val))
  | _, _ => (.panic, cpu)

/-- The `AND` arm. -/
def execAND (cpu : CPU) (parts : List String) : Outcome × CPU :=
  match parts.get? 1, parts.get? 2 with
  | some p1, some p2 =>
    match cpu.get_value p2 with
    | .error e => (.err e, cpu)
    | .ok val =>
      match cpu.registers (trimEndCommas p1) with
      | none => (.panic, cpu)
      | some r =>
        (.ok, commit cpu (trimEndCommas p1) (r &&& val))
  | _, _ => (.panic, cpu)

/-- The `OR` arm. -/
def execOR (cpu : CPU) (parts : List String) : Outcome × CPU :=
  match parts.get? 1, parts.get? 2 with
  | some p1, some p2 =>
    match cpu.get_value p2 with
    | .error e => (.err e, cpu)
    | .ok val =>
      match cpu.registers (trimEndCommas p1) with
      | none => (.panic, cpu)
      | some r =>
        (.ok, commit cpu (trimEndCommas p1) (r ||| val))
  | _, _ => (.panic, cpu)

/-- The `XOR` arm. -/
def execXOR (cpu : CPU) (parts : List String) : Outcome × CPU :=
  match parts.get? 1, parts.get? 2 with
  | some p1, some p2 =>
    match cpu.get_value p2 with
    | .error e => (.err e, cpu)
    | .ok val =>
      match cpu.registers (trimEndCommas p1) with
      | none => (.panic, cpu)
      | some r =>
        (.ok, commit cpu (trimEndCommas p1) (r ^^^ val))
  | _, _ => (.panic, cpu)

/-- The `NOT` arm: `!r` on `u128` is `2 ^ 128 - 1 - r`; the destination
token is used verbatim (no comma trimming in this arm). -/
def execNOT (cpu : CPU) (parts : List String) : Outcome × CPU :=
  match parts.get? 1 with
  | some p1 =>
    match cpu.registers p1 with
    | none => (.panic, cpu)
    | some r =>
      (.ok, commit cpu p1 (U128 - 1 - r))
  | none => (.panic, cpu)

/-- The `SHL` arm: `u128 << amount` panics when the amount is `≥ 128`;
otherwise the wrapped shift is masked and stored. -/
def execSHL (cpu : CPU) (parts : List String) : Outcome × CPU :=
  match parts.get? 1, parts.get? 2 with
  | some p1, some p2 =>
    match cpu.get_value p2 with
    | .error e => (.err e, cpu)
    | .ok val =>
      match cpu.registers (trimEndCommas p1) with
      | none => (.panic, cpu)
      | some r =>
        if 128 ≤ val then (.panic, cpu)
        else
          (.ok, commit cpu (trimEndCommas p1) ((r <<< val) % U128))
  | _, _ => (.panic, cpu)

/-- The `SHR` arm: logical right shift; an amount `≥ 128` panics. -/
def execSHR (cpu : CPU) (parts : List String) : Outcome × CPU :=
  match parts.get? 1, parts.get? 2 with
  | some p1, some p2 =>
    match cpu.get_value p2 with
    | .error e => (.err e, cpu)
    | .ok val =>
      match cpu.registers (trimEndCommas p1) with
      | none => (.panic, cpu)
      | some r =>
        if 128 ≤ val then (.panic, cpu)
        else
          (.ok, commit cpu (trimEndCommas p1) (r >>> val))
  | _, _ => (.panic, cpu)

/-- The `LOAD` arm: the address is the operand truncated to `usize`
(64 bits); an out-of-range address silently reads zero (`unwrap_or(0)`)
and the read value is stored unmasked. -/
def execLOAD (cpu : CPU) (parts : List String) : Outcome × CPU :=
  match parts.get? 1, parts.get? 2 with
  | some p1, some p2 =>
    match cpu.get_value p2 with
    | .error e => (.err e, cpu)
    | .ok val =>
      (.ok, { cpu with registers := insertStore cpu.registers (trimEndCommas p1) ((cpu.memory.get? (val % 2 ^ 64)).getD 0) })
  | _, _ => (.panic, cpu)

/-- The `STORE` arm: an out-of-range address returns `Err` before any
mutation; an in-range store writes the raw register value to memory. -/
def execSTORE (cpu : CPU) (parts : List String) : Outcome × CPU :=
  match parts.get? 1, parts.get? 2 with
  | some p1, some p2 =>
    match cpu.get_value p2 with
    | .error e => (.err e, cpu)
    | .ok val =>
      if cpu.memory.length ≤ val % 2 ^ 64 then (.err "Memory out of bounds", cpu)
      else
        match cpu.registers (trimEndCommas p1) with
        | none => (.panic, cpu)
        | some r => (.ok, { cpu with memory := cpu.memory.set (val % 2 ^ 64) r })
  | _, _ => (.panic, cpu)

/-- `CPU::execute` after tokenization: dispatch on the uppercased opcode. -/
def CPU.executeParts (cpu : CPU) (parts : List String) : Outcome × CPU :=
  match parts with
  | [] => (.err "Empty instruction", cpu)
  | p0 :: _ =>
    match toUpperAscii p0 with
    | "MOV" => execMOV cpu parts
    | "ADD" => execADD cpu parts
    | "SUB" => execSUB cpu parts
    | "MUL" => execMUL cpu parts
    | "DIV" => execDIV cpu parts
    | "AND" => execAND cpu parts
    | "OR" => execOR cpu parts
    | "XOR" => execXOR cpu parts
    | "NOT" => execNOT cpu parts
    | "SHL" => execSHL cpu parts
    | "SHR" => execSHR cpu parts
    | "LOAD" => execLOAD cpu parts
    | "STORE" => execSTORE cpu parts
    | _ => (.err ("Unknown instruction: " ++ p0), cpu)

/-- `CPU::execute`: split the instruction line on whitespace and dispatch. -/
def CPU.execute (cpu : CPU) (instruction : String) : Outcome × CPU :=
  cpu.executeParts (splitWs instruction)

/-- Run a sequence of instruction lines the way the console loop does:
each line is executed and the loop continues with the resulting state. -/
def runProgram (cpu : CPU) (lines : List String) : CPU :=
  lines.foldl (fun c line => (c.execute line).2) cpu

/-- The range invariant of the spec: every stored register value and every
memory cell is at most the configured mask. -/
def InRange (cpu : CPU) : Prop :=
  (∀ s v, cpu.registers s = some v → v ≤ maskOf cpu.bits) ∧
  ∀ v ∈ cpu.memory, v ≤ maskOf cpu.bits

end Till128

namespace BrainOverflow

/-- The width configuration of `brain-overflow-all.rs`, including the
arbitrary `Custom` bit count. -/
inductive BOWidth where
  | Bit32
  | Bit64
  | Bit128
  | Bit256
  | Bit512
  | Bit1024
  | Custom (n : Nat)
deriving DecidableEq

/-- Bit count of a configured width. -/
def BOWidth.bitsCount : BOWidth → Nat
  | .Bit32 => 32
  | .Bit64 => 64
  | .Bit128 => 128
  | .Bit256 => 256
  | .Bit512 => 512
  | .Bit1024 => 1024
  | .Custom n => n

/-- `CPU::mask`: `(BigUint::one() << width) - BigUint::one()`. -/
def BOWidth.maskOf : BOWidth → Nat
  | .Bit32 => 2 ^ 32 - 1
  | .Bit64 => 2 ^ 64 - 1
  | .Bit128 => 2 ^ 128 - 1
  | .Bit256 => 2 ^ 256 - 1
  | .Bit512 => 2 ^ 512 - 1
  | .Bit1024 => 2 ^ 1024 - 1
  | .Custom n => 2 ^ n - 1

/-- The CPU state of `brain-overflow-all.rs`: `BigUint` registers and
memory cells (modelled as `Nat`), flags, and a program counter. -/
structure BOCPU where
  registers : String → Option Nat
  bits : BOWidth
  flags : String → Option Bool
  memory : List Nat
  pc : Nat

/-- `CPU::new`: registers `R0 .. R{reg_count-1}` (zero-based in this
variant) all zero, four false flags, zeroed memory, `pc = 0`. -/
def BOCPU.new (bits : BOWidth) (reg_count mem_size : Nat) : BOCPU :=
  { registers := fun s =>
      if s ∈ (List.range reg_count).map (fun i => regName i) then some 0
      else none
    bits := bits
    flags := fun s => if s ∈ flagNames then some false else none
    memory := List.replicate mem_size 0
    pc := 0 }

/-- `CPU::to_masked`: `value & self.mask()`. -/
def BOCPU.to_masked (cpu : BOCPU) (value : Nat) : Nat :=
  value &&& cpu.bits.maskOf

/-- `CPU::set_flag`: overwrite a flag only when its name already exists. -/
def BOCPU.set_flag (cpu : BOCPU) (name : String) (value : Bool) : BOCPU :=
  match cpu.flags name with
  | some _ =>
    { cpu with flags := fun s => if s = name then some value else cpu.flags s }
  | none => cpu

/-- The masked register commit shared by the arithmetic methods:
`self.registers.insert(reg, self.to_masked(result))`. -/
def boCommit (cpu : BOCPU) (reg : String) (result : Nat) : BOCPU :=
  { cpu with registers := insertStore cpu.registers reg (cpu.to_masked result) }

/-- `CPU::add`: unbounded sum, masked store, `ZERO` from the pre-mask sum.
The `unwrap` on a missing register is a panic, modelled as `none`. -/
def BOCPU.add (cpu : BOCPU) (reg : String) (val : Nat) : Option BOCPU :=
  match cpu.registers reg with
  | none => none
  | some r_val =>
    some ((boCommit cpu reg (r_val + val)).set_flag "ZERO" (decide (r_val + val = 0)))

/-- `CPU::sub`: saturating difference (`r_val >= val` guard), masked. -/
def BOCPU.sub (cpu : BOCPU) (reg : String) (val : Nat) : Option BOCPU :=
  match cpu.registers reg with
  | none => none
  | some r_val =>
    some ((boCommit cpu reg (if val ≤ r_val then r_val - val else 0)).set_flag "ZERO"
      (decide ((if val ≤ r_val then r_val - val else 0) = 0)))

/-- `CPU::mul`: unbounded product, masked store, `ZERO` pre-mask. -/
def BOCPU.mul (cpu : BOCPU) (reg : String) (val : Nat) : Option BOCPU :=
  match cpu.registers reg with
  | none => none
  | some r_val =>
    some ((boCommit cpu reg (r_val * val)).set_flag "ZERO" (decide (r_val * val = 0)))

/-- `CPU::div`: a zero divisor silently returns without touching any
state; otherwise truncating division, masked store, `ZERO` pre-mask. -/
def BOCPU.div (cpu : BOCPU) (reg : String) (val : Nat) : Option BOCPU :=
  if val = 0 then some cpu
  else
    match cpu.registers reg with
    | none => none
    | some r_val =>
      some ((boCommit cpu reg (r_val / val)).set_flag "ZERO" (decide (r_val / val = 0)))

/-- The operation selection inside `CPU::bitwise_op`. -/
def boBitwise (r_val val : Nat) (op : String) : Nat :=
  match op with
  | "AND" => r_val &&& val
  | "OR" => r_val ||| val
  | "XOR" => r_val ^^^ val
  | _ => r_val

/-- `CPU::bitwise_op`: AND/OR/XOR selected by name (anything else copies
the register), masked store, `ZERO` pre-mask. -/
def BOCPU.bitwise_op (cpu : BOCPU) (reg : String) (val : Nat) (op : String) :
    Option BOCPU :=
  match cpu.registers reg with
  | none => none
  | some r_val =>
    some ((boCommit cpu reg (boBitwise r_val val op)).set_flag "ZERO"
      (decide (boBitwise r_val val op = 0)))

/-- `CPU::shl`: unbounded `BigUint` left shift, masked store, no flags. -/
def BOCPU.shl (cpu : BOCPU) (reg : String) (n : Nat) : Option BOCPU :=
  match cpu.registers reg with
  | none => none
  | some r_val =>
    some (boCommit cpu reg (r_val <<< n))

/-- `CPU::shr`: logical right shift, masked store, no flags. -/
def BOCPU.shr (cpu : BOCPU) (reg : String) (n : Nat) : Option BOCPU :=
  match cpu.registers reg with
  | none => none
  | some r_val =>
    some (boCommit cpu reg (r_val >>> n))

/-- `CPU::load`: an in-range address copies the memory cell into the
register; an out-of-range address is a silent no-op. -/
def BOCPU.load (cpu : BOCPU) (reg : String) (addr : Nat) : Option BOCPU :=
  if addr < cpu.memory.length then
    some { cpu with registers := insertStore cpu.registers reg ((cpu.memory.get? addr).getD 0) }
  else some cpu

/-- `CPU::store`: an in-range address writes the masked register value to
memory (panicking if the register is missing); out of range is a no-op. -/
def BOCPU.store (cpu : BOCPU) (reg : String) (addr : Nat) : Option BOCPU :=
  if addr < cpu.memory.length then
    match cpu.registers reg with
    | none => none
    | some v =>
      some { cpu with memory := cpu.memory.set addr (cpu.to_masked v) }
  else some cpu

/-- One console command of `brain-overflow-all.rs`, as dispatched by its
main loop onto the `CPU` methods. -/
inductive Instr where
  | add (reg : String) (val : Nat)
  | sub (reg : String) (val : Nat)
  | mul (reg : String) (val : Nat)
  | div (reg : String) (val : Nat)
  | andOp (reg : String) (val : Nat)
  | orOp (reg : String) (val : Nat)
  | xorOp (reg : String) (val : Nat)
  | shl (reg : String) (n : Nat)
  | shr (reg : String) (n : Nat)
  | load (reg : String) (addr : Nat)
  | store (reg : String) (addr : Nat)

/-- Dispatch of one command, exactly as the main loop does it. -/
def step (cpu : BOCPU) : Instr → Option BOCPU
  | .add reg val => cpu.add reg val
  | .sub reg val => cpu.sub reg val
  | .mul reg val => cpu.mul reg val
  | .div reg val => cpu.div reg val
  | .andOp reg val => cpu.bitwise_op reg val "AND"
  | .orOp reg val => cpu.bitwise_op reg val "OR"
  | .xorOp reg val => cpu.bitwise_op reg val "XOR"
  | .shl reg n => cpu.shl reg n
  | .shr reg n => cpu.shr reg n
  | .load reg addr => cpu.load reg addr
  | .store reg addr => cpu.store reg addr

/-- Run a sequence of commands; a panic (`none`) aborts the run. -/
def run (cpu : BOCPU) : List Instr → Option BOCPU
  | [] => some cpu
  | i :: is =>
    match step cpu i with
    | none => none
    | some c => run c is

/-- The range invariant for the bignum engine. -/
def BOInRange (cpu : BOCPU) : Prop :=
  (∀ s v, cpu.registers s = some v → v ≤ cpu.bits.maskOf) ∧
  ∀ v ∈ cpu.memory, v ≤ cpu.bits.maskOf

end BrainOverflow

namespace InstrSet

/-- The CPU state of `instructions_set.rs`: eight `i32` registers and a
configured bit count; no flags and no memory in this variant. -/
structure ISCPU where
  registers : String → Option Int
  bits : Nat

/-- `CPU::new`: registers `R1 ..= R8` all zero. -/
def ISCPU.new (bits : Nat) : ISCPU :=
  { registers := fun s =>
      if s ∈ (List.range 8).map (fun i => regName (i + 1)) then some 0 else none
    bits := bits }

/-- `CPU::mask`: `(1 << self.bits) - 1` on i32 (panics for `bits ≥ 31`
under checked arithmetic, like the calculator's mask). -/
def ISCPU.mask (cpu : ISCPU) : Option Int :=
  match i32Shl1 cpu.bits with
  | none => none
  | some p => i32Chk (p - 1)

/-- `CPU::to_twos_complement`: `value & self.mask()`. -/
def ISCPU.to_twos_complement (cpu : ISCPU) (value : Int) : Option Int :=
  match cpu.mask with
  | none => none
  | some m => some (Int.land value m)

/-- Magnitude part of `str::parse::<i32>` after an optional sign:
nonempty decimal digits, bounded by the signed 32-bit range. -/
def parseI32Mag (cs : List Char) (neg : Bool) : Option Int :=
  match cs with
  | [] => none
  | _ =>
    match parseDigitsAux 10 cs 0 with
    | none => none
    | some v =>
      if neg then (if v ≤ 2 ^ 31 then some (-(v : Int)) else none)
      else (if v < 2 ^ 31 then some ((v : Int)) else none)

/-- `str::parse::<i32>`: optional `+`/`-` sign, then decimal digits. -/
def parseI32 (s : String) : Option Int :=
  match s.toList with
  | '-' :: rest => parseI32Mag rest true
  | '+' :: rest => parseI32Mag rest false
  | cs => parseI32Mag cs false

/-- `CPU::get_value`: register lookup for an `R`-prefixed operand,
otherwise a decimal `i32` immediate. -/
def ISCPU.get_value (cpu : ISCPU) (operand : String) : Except String Int :=
  if firstCharIs operand 'R' then
    match cpu.registers operand with
    | some v => .ok v
    | none => .error ("Register " ++ operand ++ " not found")
  else
    match parseI32 operand with
    | some v => .ok v
    | none => .error ("Invalid immediate value: " ++ operand)

/-- The register commit: `self.registers.insert(reg, result)` (the result
was already masked by `to_twos_complement`). -/
def isCommit (cpu : ISCPU) (reg : String) (result : Int) : ISCPU :=
  { cpu with registers := insertStoreI cpu.registers reg result }

/-- The `MOV` arm: mask the operand and insert it. -/
def execISMOV (cpu : ISCPU) (parts : List String) : Till128.Outcome × ISCPU :=
  match parts.get? 1, parts.get? 2 with
  | some p1, some p2 =>
    match cpu.get_value p2 with
    | .error e => (.err e, cpu)
    | .ok val =>
      match cpu.to_twos_complement val with
      | none => (.panic, cpu)
      | some result => (.ok, isCommit cpu (trimEndCommas p1) result)
  | _, _ => (.panic, cpu)

/-- The `ADD` arm: checked i32 addition, then mask and insert. -/
def execISADD (cpu : ISCPU) (parts : List String) : Till128.Outcome × ISCPU :=
  match parts.get? 1, parts.get? 2 with
  | some p1, some p2 =>
    match cpu.get_value p2 with
    | .error e => (.err e, cpu)
    | .ok val =>
      match cpu.registers (trimEndCommas p1) with
      | none => (.panic, cpu)
      | some r =>
        match i32Chk (r + val) with
        | none => (.panic, cpu)
        | some sum =>
          match cpu.to_twos_complement sum with
          | none => (.panic, cpu)
          | some result => (.ok, isCommit cpu (trimEndCommas p1) result)
  | _, _ => (.panic, cpu)

/-- The `SUB` arm: checked i32 subtraction, then mask and insert. -/
def execISSUB (cpu : ISCPU) (parts : List String) : Till128.Outcome × ISCPU :=
  match parts.get? 1, parts.get? 2 with
  | some p1, some p2 =>
    match cpu.get_value p2 with
    | .error e => (.err e, cpu)
    | .ok val =>
      match cpu.registers (trimEndCommas p1) with
      | none => (.panic, cpu)
      | some r =>
        match i32Chk (r - val) with
        | none => (.panic, cpu)
        | some d =>
          match cpu.to_twos_complement d with
          | none => (.panic, cpu)
          | some result => (.ok, isCommit cpu (trimEndCommas p1) result)
  | _, _ => (.panic, cpu)

/-- The `MUL` arm: checked i32 multiplication, then mask and insert. -/
def execISMUL (cpu : ISCPU) (parts : List String) : Till128.Outcome × ISCPU :=
  match parts.get? 1, parts.get? 2 with
  | some p1, some p2 =>
    match cpu.get_value p2 with
    | .error e => (.err e, cpu)
    | .ok val =>
      match cpu.registers (trimEndCommas p1) with
      | none => (.panic, cpu)
      | some r =>
        match i32Chk (r * val) with
        | none => (.panic, cpu)
        | some p =>
          match cpu.to_twos_complement p with
          | none => (.panic, cpu)
          | some result => (.ok, isCommit cpu (trimEndCommas p1) result)
  | _, _ => (.panic, cpu)

/-- The `DIV` arm: a zero divisor is an `Err`; `i32::MIN / -1` is the
division-overflow panic; otherwise i32 `/` truncates toward zero
(`Int.tdiv`), then mask and insert. -/
def execISDIV (cpu : ISCPU) (parts : List String) : Till128.Outcome × ISCPU :=
  match parts.get? 1, parts.get? 2 with
  | some p1, some p2 =>
    match cpu.get_value p2 with
    | .error e => (.err e, cpu)
    | .ok val =>
      if val = 0 then (.err "Division by zero", cpu)
      else
        match cpu.registers (trimEndCommas p1) with
        | none => (.panic, cpu)
        | some r =>
          if r = -(2 ^ 31) ∧ val = -1 then (.panic, cpu)
          else
            match cpu.to_twos_complement (Int.tdiv r val) with
            | none => (.panic, cpu)
            | some result => (.ok, isCommit cpu (trimEndCommas p1) result)
  | _, _ => (.panic, cpu)

/-- The `AND` arm. -/
def execISAND (cpu : ISCPU) (parts : List String) : Till128.Outcome × ISCPU :=
  match parts.get? 1, parts.get? 2 with
  | some p1, some p2 =>
    match cpu.get_value p2 with
    | .error e => (.err e, cpu)
    | .ok val =>
      match cpu.registers (trimEndCommas p1) with
      | none => (.panic, cpu)
      | some r =>
        match cpu.to_twos_complement (Int.land r val) with
        | none => (.panic, cpu)
        | some result => (.ok, isCommit cpu (trimEndCommas p1) result)
  | _, _ => (.panic, cpu)

/-- The `OR` arm. -/
def execISOR (cpu : ISCPU) (parts : List String) : Till128.Outcome × ISCPU :=
  match parts.get? 1, parts.get? 2 with
  | some p1, some p2 =>
    match cpu.get_value p2 with
    | .error e => (.err e, cpu)
    | .ok val =>
      match cpu.registers (trimEndCommas p1) with
      | none => (.panic, cpu)
      | some r =>
        match cpu.to_twos_complement (Int.lor r val) with
        | none => (.panic, cpu)
        | some result => (.ok, isCommit cpu (trimEndCommas p1) result)
  | _, _ => (.panic, cpu)

/-- The `XOR` arm. -/
def execISXOR (cpu : ISCPU) (parts : List String) : Till128.Outcome × ISCPU :=
  match parts.get? 1, parts.get? 2 with
  | some p1, some p2 =>
    match cpu.get_value p2 with
    | .error e => (.err e, cpu)
    | .ok val =>
      match cpu.registers (trimEndCommas p1) with
      | none => (.panic, cpu)
      | some r =>
        match cpu.to_twos_complement (Int.xor r val) with
        | none => (.panic, cpu)
        | some result => (.ok, isCommit cpu (trimEndCommas p1) result)
  | _, _ => (.panic, cpu)

/-- The `NOT` arm: destination token used verbatim (no comma trimming);
`!r` on i32 never overflows. -/
def execISNOT (cpu : ISCPU) (parts : List String) : Till128.Outcome × ISCPU :=
  match parts.get? 1 with
  | some p1 =>
    match cpu.registers p1 with
    | none => (.panic, cpu)
    | some r =>
      match cpu.to_twos_complement (Int.not r) with
      | none => (.panic, cpu)
      | some result => (.ok, isCommit cpu p1 result)
  | none => (.panic, cpu)

/-- The `SHL` arm: `i32 << i32` panics for a negative amount or one
`≥ 32`; the value bits wrap; then mask and insert. -/
def execISSHL (cpu : ISCPU) (parts : List String) : Till128.Outcome × ISCPU :=
  match parts.get? 1, parts.get? 2 with
  | some p1, some p2 =>
    match cpu.get_value p2 with
    | .error e => (.err e, cpu)
    | .ok val =>
      match cpu.registers (trimEndCommas p1) with
      | none => (.panic, cpu)
      | some r =>
        if val < 0 ∨ 32 ≤ val then (.panic, cpu)
        else
          match cpu.to_twos_complement (i32Wrap (r * 2 ^ val.toNat)) with
          | none => (.panic, cpu)
          | some result => (.ok, isCommit cpu (trimEndCommas p1) result)
  | _, _ => (.panic, cpu)

/-- The `SHR` arm: `(r as u32 >> val) as i32` — a logical shift of the
32-bit reinterpretation, with the same amount checks. -/
def execISSHR (cpu : ISCPU) (parts : List String) : Till128.Outcome × ISCPU :=
  match parts.get? 1, parts.get? 2 with
  | some p1, some p2 =>
    match cpu.get_value p2 with
    | .error e => (.err e, cpu)
    | .ok val =>
      match cpu.registers (trimEndCommas p1) with
      | none => (.panic, cpu)
      | some r =>
        if val < 0 ∨ 32 ≤ val then (.panic, cpu)
        else
          match cpu.to_twos_complement (i32Wrap ((r % 2 ^ 32) / 2 ^ val.toNat)) with
          | none => (.panic, cpu)
          | some result => (.ok, isCommit cpu (trimEndCommas p1) result)
  | _, _ => (.panic, cpu)

/-- `CPU::execute` of `instructions_set.rs` after tokenization. -/
def ISCPU.executeParts (cpu : ISCPU) (parts : List String) : Till128.Outcome × ISCPU :=
  match parts with
  | [] => (.err "Empty instruction", cpu)
  | p0 :: _ =>
    match toUpperAscii p0 with
    | "MOV" => execISMOV cpu parts
    | "ADD" => execISADD cpu parts
    | "SUB" => execISSUB cpu parts
    | "MUL" => execISMUL cpu parts
    | "DIV" => execISDIV cpu parts
    | "AND" => execISAND cpu parts
    | "OR" => execISOR cpu parts
    | "XOR" => execISXOR cpu parts
    | "NOT" => execISNOT cpu parts
    | "SHL" => execISSHL cpu parts
    | "SHR" => execISSHR cpu parts
    | _ => (.err ("Unknown instruction: " ++ p0), cpu)

/-- `CPU::execute`: split the line on whitespace and dispatch. -/
def ISCPU.execute (cpu : ISCPU) (instruction : String) : Till128.Outcome × ISCPU :=
  cpu.executeParts (splitWs instruction)

end InstrSet

namespace TwosComp

/-- `mask(bits)` from the calculator source: `(1 << bits) - 1` on i32.
The shift amount panics for `bits ≥ 32`, and at `bits = 31` the wrapped
shift yields `i32::MIN`, whose decrement overflows. -/
def mask (bits : Nat) : Option Int :=
  match i32Shl1 bits with
  | none => none
  | some p => i32Chk (p - 1)

/-- `to_twos_complement(value, bits)`: `value & mask(bits)` on i32, with
`&` the two's-complement bitwise AND (modelled by `Int.land`); it panics
whenever `mask` does. -/
def to_twos_complement (value : Int) (bits : Nat) : Option Int :=
  match mask bits with
  | none => none
  | some m => some (Int.land value m)

/-- `from_twos_complement(value, bits)`: if the sign bit `1 << (bits - 1)`
is set in `value`, return `value - (1 << bits)` (a checked i32
subtraction), else `value`. -/
def from_twos_complement (value : Int) (bits : Nat) : Option Int :=
  match i32Shl1 (bits - 1) with
  | none => none
  | some sign_bit =>
    if Int.land value sign_bit ≠ 0 then
      match i32Shl1 bits with
      | none => none
      | some p => i32Chk (value - p)
    else some value

end TwosComp

/-! ## Helper lemmas: the `till-128.rs` engine -/

namespace Till128

theorem maskOf_eq_sub (b : CpuWidth) : maskOf b = 2 ^ b.bitsCount - 1 := by
  cases b <;> rfl

theorem bitsCount_le_128 (b : CpuWidth) : b.bitsCount ≤ 128 := by
  cases b <;> norm_num [CpuWidth.bitsCount]

theorem set_flag_registers (cpu : CPU) (name : String) (b : Bool) :
    (cpu.set_flag name b).registers = cpu.registers := by
  unfold CPU.set_flag; split <;> rfl

theorem set_flag_bits (cpu : CPU) (name : String) (b : Bool) :
    (cpu.set_flag name b).bits = cpu.bits := by
  unfold CPU.set_flag; split <;> rfl

theorem set_flag_memory (cpu : CPU) (name : String) (b : Bool) :
    (cpu.set_flag name b).memory = cpu.memory := by
  unfold CPU.set_flag; split <;> rfl

theorem set_flag_flags_ne (s name : String) (h : s ≠ name) (cpu : CPU) (b : Bool) :
    (cpu.set_flag name b).flags s = cpu.flags s := by
  unfold CPU.set_flag
  split
  · simp [h]
  · rfl

theorem set_flag_flags_self (cpu : CPU) (name : String) (b : Bool)
    (h : (cpu.flags name).isSome = true) :
    (cpu.set_flag name b).flags name = some b := by
  unfold CPU.set_flag
  split
  · simp
  · simp_all

theorem commit_registers (c : CPU) (k : String) (v : Nat) :
    (commit c k v).registers = insertStore c.registers k (c.to_masked v) := rfl

theorem commit_flags (c : CPU) (k : String) (v : Nat) :
    (commit c k v).flags = c.flags := rfl

theorem to_masked_le (cpu : CPU) (v : Nat) : cpu.to_masked v ≤ maskOf cpu.bits :=
  Nat.and_le_right

theorem to_masked_le_of_bits (c : CPU) (v : Nat) (b : CpuWidth) (hb : c.bits = b) :
    c.to_masked v ≤ maskOf b := hb ▸ to_masked_le c v

theorem to_masked_of_bits_eq (c cpu : CPU) (v : Nat) (h : c.bits = cpu.bits) :
    c.to_masked v = cpu.to_masked v := by
  unfold CPU.to_masked CPU.mask
  rw [h]

theorem to_masked_eq_mod (cpu : CPU) (v : Nat) :
    cpu.to_masked v = v % 2 ^ cpu.bits.bitsCount := by
  unfold CPU.to_masked CPU.mask
  rw [maskOf_eq_sub, Nat.and_pow_two_sub_one_eq_mod]

theorem insertStore_le (R : String → Option Nat) (k : String) (x M : Nat)
    (hR : ∀ s v, R s = some v → v ≤ M) (hx : x ≤ M) :
    ∀ s v, insertStore R k x s = some v → v ≤ M := by
  intro s v
  unfold insertStore
  split
  · rintro ⟨⟩; exact hx
  · exact hR s v

theorem insertStore_some (R : String → Option Nat) (k : String) (x : Nat)
    (s : String) (w : Nat) (h : R s = some w) :
    ∃ w', insertStore R k x s = some w' := by
  unfold insertStore
  split
  exacts [⟨x, rfl⟩, ⟨w, h⟩]

theorem mem_set_le (l : List Nat) (i x M : Nat) (hl : ∀ v ∈ l, v ≤ M) (hx : x ≤ M) :
    ∀ v ∈ l.set i x, v ≤ M := by
  intro v hv
  rcases List.mem_or_eq_of_mem_set hv with h | rfl
  exacts [hl v h, hx]

theorem getD_le (l : List Nat) (i M : Nat) (hl : ∀ v ∈ l, v ≤ M) :
    (l.get? i).getD 0 ≤ M := by
  cases h : l.get? i
  · simp
  · simpa using hl _ (List.get?_mem h)

theorem wrapSub_mod (a b w : Nat) (hb : b < 2 ^ w) (hw : w ≤ 128) :
    wrapSub a b % 2 ^ w = (a + 2 ^ w - b) % 2 ^ w := by
  have hle : 2 ^ w ≤ 2 ^ 128 := Nat.pow_le_pow_right (by norm_num) hw
  unfold wrapSub U128
  split
  · have h1 : a + 2 ^ w - b = (a - b) + 2 ^ w := by omega
    rw [h1, Nat.add_mod_right]
  · obtain ⟨c, hc⟩ := pow_dvd_pow 2 hw
    rcases c with _ | k
    · simp at hc
    · have hc' : (2 : Nat) ^ 128 = 2 ^ w * k + 2 ^ w := by rw [hc]; ring
      have h1 : a + 2 ^ 128 - b = (a + 2 ^ w - b) + 2 ^ w * k := by omega
      rw [h1, Nat.add_mul_mod_self_left]

/-- Every `Err` return of `executeParts` happens before any state mutation. -/
theorem err_unchanged (cpu : CPU) (parts : List String) (msg : String) :
    (cpu.executeParts parts).1 = .err msg → (cpu.executeParts parts).2 = cpu := by
  unfold CPU.executeParts execMOV execADD execSUB execMUL execDIV execAND execOR execXOR execNOT execSHL execSHR execLOAD execSTORE
  repeat' split
  all_goals intro h
  all_goals repeat' split
  all_goals simp_all

/-- One `executeParts` call preserves the range invariant. -/
theorem inRange_step (cpu : CPU) (parts : List String) (h : InRange cpu) :
    InRange (cpu.executeParts parts).2 := by
  obtain ⟨hr, hm⟩ := h
  unfold CPU.executeParts execMOV execADD execSUB execMUL execDIV execAND execOR execXOR execNOT execSHL execSHR execLOAD execSTORE commit
  repeat' split
  all_goals refine ⟨?_, ?_⟩
  all_goals simp only [set_flag_registers, set_flag_bits, set_flag_memory]
  all_goals first
    | exact hr
    | exact hm
    | (apply insertStore_le _ _ _ _ hr;
       exact to_masked_le_of_bits _ _ _ (by simp only [set_flag_bits]))
    | (apply insertStore_le _ _ _ _ hr; exact getD_le _ _ _ hm)
    | (apply mem_set_le _ _ _ _ hm; exact hr _ _ (by assumption))

/-- One `executeParts` call never turns the OVERFLOW or SIGN flag on:
`set_flag` is only ever called with the names CARRY and ZERO. -/
theorem flags_step (cpu : CPU) (parts : List String)
    (hov : cpu.flags "OVERFLOW" = some false) (hsg : cpu.flags "SIGN" = some false) :
    (cpu.executeParts parts).2.flags "OVERFLOW" = some false ∧
    (cpu.executeParts parts).2.flags "SIGN" = some false := by
  unfold CPU.executeParts execMOV execADD execSUB execMUL execDIV execAND execOR execXOR execNOT execSHL execSHR execLOAD execSTORE
  repeat' split
  all_goals refine ⟨?_, ?_⟩
  all_goals simp only [commit_flags,
    set_flag_flags_ne "OVERFLOW" "CARRY" (by decide),
    set_flag_flags_ne "OVERFLOW" "ZERO" (by decide),
    set_flag_flags_ne "SIGN" "CARRY" (by decide),
    set_flag_flags_ne "SIGN" "ZERO" (by decide)]
  all_goals first | exact hov | exact hsg

/-- One `executeParts` call preserves the configured width. -/
theorem exec_bits (cpu : CPU) (parts : List String) :
    (cpu.executeParts parts).2.bits = cpu.bits := by
  unfold CPU.executeParts execMOV execADD execSUB execMUL execDIV execAND execOR execXOR execNOT execSHL execSHR execLOAD execSTORE commit
  repeat' split
  all_goals simp only [set_flag_bits]

/-- No instruction ever removes an existing register key. -/
theorem keys_not_removed (cpu : CPU) (parts : List String) (s : String) (w : Nat)
    (hw : cpu.registers s = some w) :
    ∃ w', (cpu.executeParts parts).2.registers s = some w' := by
  unfold CPU.executeParts execMOV execADD execSUB execMUL execDIV execAND execOR execXOR execNOT execSHL execSHR execLOAD execSTORE
  repeat' split
  all_goals simp only [commit_registers, set_flag_registers]
  all_goals first
    | exact ⟨w, hw⟩
    | exact insertStore_some _ _ _ _ _ hw

/-- Every opcode other than MOV and LOAD writes only registers that
already exist, so it never adds a key. -/
theorem keys_not_added (cpu : CPU) (p0 : String) (rest : List String) (s : String)
    (hmov : toUpperAscii p0 ≠ "MOV") (hload : toUpperAscii p0 ≠ "LOAD")
    (hs : cpu.registers s = none) :
    (cpu.executeParts (p0 :: rest)).2.registers s = none := by
  unfold CPU.executeParts execMOV execADD execSUB execMUL execDIV execAND execOR execXOR execNOT execSHL execSHR execLOAD execSTORE
  repeat' split
  all_goals simp only [commit_registers, set_flag_registers, insertStore]
  all_goals try split
  all_goals first | exact hs | simp_all

theorem runProgram_inRange (lines : List String) :
    ∀ cpu : CPU, InRange cpu → InRange (runProgram cpu lines) := by
  induction lines with
  | nil => exact fun cpu h => h
  | cons l ls ih => exact fun cpu h => ih _ (inRange_step cpu (splitWs l) h)

theorem runProgram_flags (lines : List String) :
    ∀ cpu : CPU, cpu.flags "OVERFLOW" = some false → cpu.flags "SIGN" = some false →
      (runProgram cpu lines).flags "OVERFLOW" = some false ∧
      (runProgram cpu lines).flags "SIGN" = some false := by
  induction lines with
  | nil => exact fun cpu hov hsg => ⟨hov, hsg⟩
  | cons l ls ih =>
    intro cpu hov hsg
    obtain ⟨h1, h2⟩ := flags_step cpu (splitWs l) hov hsg
    exact ih _ h1 h2

theorem runProgram_bits (lines : List String) :
    ∀ cpu : CPU, (runProgram cpu lines).bits = cpu.bits := by
  induction lines with
  | nil => exact fun _ => rfl
  | cons l ls ih =>
    intro cpu
    calc (runProgram ((cpu.execute l).2) ls).bits = (cpu.execute l).2.bits := ih _
      _ = cpu.bits := exec_bits cpu (splitWs l)

theorem new_inRange (bits : CpuWidth) (rc ms : Nat) : InRange (CPU.new bits rc ms) := by
  refine ⟨fun s v h => ?_, fun v hv => ?_⟩
  · unfold CPU.new at h
    dsimp at h
    split at h
    · cases h; exact Nat.zero_le _
    · exact Option.noConfusion h
  · have hv' : v ∈ List.replicate ms 0 := hv
    have := List.eq_of_mem_replicate hv'
    simp [this]

theorem new_flags_ov (bits : CpuWidth) (rc ms : Nat) :
    (CPU.new bits rc ms).flags "OVERFLOW" = some false := rfl

theorem new_flags_sg (bits : CpuWidth) (rc ms : Nat) :
    (CPU.new bits rc ms).flags "SIGN" = some false := rfl

/-- Exact semantics of a well-formed `ADD` line: result masked to the
configured width, CARRY from the 128-bit backing overflow, ZERO from the
pre-mask wrapped sum. -/
theorem add_semantics (cpu : CPU) (r v : String) (rest : List String) (a b : Nat)
    (hr : cpu.registers (trimEndCommas r) = some a)
    (hv : cpu.get_value v = .ok b)
    (hz : (cpu.flags "ZERO").isSome = true)
    (hc : (cpu.flags "CARRY").isSome = true) :
    (cpu.executeParts ("ADD" :: r :: v :: rest)).1 = .ok ∧
    (cpu.executeParts ("ADD" :: r :: v :: rest)).2.registers (trimEndCommas r)
      = some ((a + b) % 2 ^ cpu.bits.bitsCount) ∧
    (cpu.executeParts ("ADD" :: r :: v :: rest)).2.flags "CARRY"
      = some (decide (2 ^ 128 ≤ a + b)) ∧
    (cpu.executeParts ("ADD" :: r :: v :: rest)).2.flags "ZERO"
      = some (decide ((a + b) % 2 ^ 128 = 0)) := by
  have hkey : cpu.executeParts ("ADD" :: r :: v :: rest) =
      (.ok, commit ((cpu.set_flag "CARRY" (decide (U128 ≤ a + b))).set_flag "ZERO"
        (decide ((a + b) % U128 = 0))) (trimEndCommas r) ((a + b) % U128)) := by
    show execADD cpu ("ADD" :: r :: v :: rest) = _
    unfold execADD
    simp [hv, hr]
  rw [hkey]
  refine ⟨rfl, ?_, ?_, ?_⟩
  · show insertStore _ _ _ _ = _
    unfold insertStore
    rw [if_pos rfl]
    have hbits : ((cpu.set_flag "CARRY" (decide (U128 ≤ a + b))).set_flag "ZERO"
        (decide ((a + b) % U128 = 0))).bits = cpu.bits := by
      rw [set_flag_bits, set_flag_bits]
    rw [to_masked_of_bits_eq _ cpu _ hbits, to_masked_eq_mod]
    have hmm : (a + b) % U128 % 2 ^ cpu.bits.bitsCount = (a + b) % 2 ^ cpu.bits.bitsCount := by
      unfold U128
      exact Nat.mod_mod_of_dvd _ (pow_dvd_pow 2 (bitsCount_le_128 cpu.bits))
    rw [hmm]
  · show ((cpu.set_flag "CARRY" _).set_flag "ZERO" _).flags "CARRY" = _
    rw [set_flag_flags_ne "CARRY" "ZERO" (by decide)]
    exact set_flag_flags_self cpu "CARRY" _ hc
  · show ((cpu.set_flag "CARRY" _).set_flag "ZERO" _).flags "ZERO" = _
    apply set_flag_flags_self
    rw [set_flag_flags_ne "ZERO" "CARRY" (by decide)]
    exact hz

/-- Exact semantics of a well-formed `SUB` line: the borrow flag is
`a < b`, the stored value is the width-masked wrapping difference, ZERO
comes from the pre-mask wrapped difference. -/
theorem sub_semantics (cpu : CPU) (r v : String) (rest : List String) (a b : Nat)
    (hr : cpu.registers (trimEndCommas r) = some a)
    (hv : cpu.get_value v = .ok b)
    (hb : b ≤ maskOf cpu.bits)
    (hz : (cpu.flags "ZERO").isSome = true)
    (hc : (cpu.flags "CARRY").isSome = true) :
    (cpu.executeParts ("SUB" :: r :: v :: rest)).1 = .ok ∧
    (cpu.executeParts ("SUB" :: r :: v :: rest)).2.registers (trimEndCommas r)
      = some ((a + 2 ^ cpu.bits.bitsCount - b) % 2 ^ cpu.bits.bitsCount) ∧
    (cpu.executeParts ("SUB" :: r :: v :: rest)).2.flags "CARRY"
      = some (decide (a < b)) ∧
    (cpu.executeParts ("SUB" :: r :: v :: rest)).2.flags "ZERO"
      = some (decide (wrapSub a b = 0)) := by
  have hb' : b < 2 ^ cpu.bits.bitsCount := by
    have := maskOf_eq_sub cpu.bits
    have h0 : 0 < 2 ^ cpu.bits.bitsCount := Nat.two_pow_pos _
    omega
  have hkey : cpu.executeParts ("SUB" :: r :: v :: rest) =
      (.ok, commit ((cpu.set_flag "CARRY" (decide (a < b))).set_flag "ZERO"
        (decide (wrapSub a b = 0))) (trimEndCommas r) (wrapSub a b)) := by
    show execSUB cpu ("SUB" :: r :: v :: rest) = _
    unfold execSUB
    simp [hv, hr, wrapSub]
  rw [hkey]
  refine ⟨rfl, ?_, ?_, ?_⟩
  · show insertStore _ _ _ _ = _
    unfold insertStore
    rw [if_pos rfl]
    have hbits : ((cpu.set_flag "CARRY" (decide (a < b))).set_flag "ZERO"
        (decide (wrapSub a b = 0))).bits = cpu.bits := by
      rw [set_flag_bits, set_flag_bits]
    rw [to_masked_of_bits_eq _ cpu _ hbits, to_masked_eq_mod,
      wrapSub_mod a b _ hb' (bitsCount_le_128 cpu.bits)]
  · show ((cpu.set_flag "CARRY" _).set_flag "ZERO" _).flags "CARRY" = _
    rw [set_flag_flags_ne "CARRY" "ZERO" (by decide)]
    exact set_flag_flags_self cpu "CARRY" _ hc
  · show ((cpu.set_flag "CARRY" _).set_flag "ZERO" _).flags "ZERO" = _
    apply set_flag_flags_self
    rw [set_flag_flags_ne "ZERO" "CARRY" (by decide)]
    exact hz

/-- A masked register shifted left by `width ≤ s < 128` stores zero. -/
theorem shl_ge_width (cpu : CPU) (r v : String) (rest : List String) (a s : Nat)
    (hr : cpu.registers (trimEndCommas r) = some a)
    (ha : a ≤ maskOf cpu.bits)
    (hv : cpu.get_value v = .ok s)
    (h1 : cpu.bits.bitsCount ≤ s) (h2 : s < 128) :
    (cpu.executeParts ("SHL" :: r :: v :: rest)).1 = .ok ∧
    (cpu.executeParts ("SHL" :: r :: v :: rest)).2.registers (trimEndCommas r) = some 0 := by
  have hkey : cpu.executeParts ("SHL" :: r :: v :: rest) =
      (.ok, commit cpu (trimEndCommas r) ((a <<< s) % U128)) := by
    show execSHL cpu ("SHL" :: r :: v :: rest) = _
    unfold execSHL
    simp [hv, hr, Nat.not_le.mpr h2]
  rw [hkey]
  refine ⟨rfl, ?_⟩
  show insertStore _ _ _ _ = _
  unfold insertStore
  rw [if_pos rfl, to_masked_eq_mod]
  have hz : (a <<< s) % U128 % 2 ^ cpu.bits.bitsCount = 0 := by
    have hd1 : 2 ^ cpu.bits.bitsCount ∣ a <<< s := by
      rw [Nat.shiftLeft_eq]
      exact Dvd.dvd.mul_left (pow_dvd_pow 2 h1) a
    rw [Nat.mod_mod_of_dvd _ (by unfold U128; exact pow_dvd_pow 2 (bitsCount_le_128 cpu.bits))]
    exact Nat.mod_eq_zero_of_dvd hd1
  rw [hz]

/-- A masked register shifted right by `width ≤ s < 128` stores zero. -/
theorem shr_ge_width (cpu : CPU) (r v : String) (rest : List String) (a s : Nat)
    (hr : cpu.registers (trimEndCommas r) = some a)
    (ha : a ≤ maskOf cpu.bits)
    (hv : cpu.get_value v = .ok s)
    (h1 : cpu.bits.bitsCount ≤ s) (h2 : s < 128) :
    (cpu.executeParts ("SHR" :: r :: v :: rest)).1 = .ok ∧
    (cpu.executeParts ("SHR" :: r :: v :: rest)).2.registers (trimEndCommas r) = some 0 := by
  have hkey : cpu.executeParts ("SHR" :: r :: v :: rest) =
      (.ok, commit cpu (trimEndCommas r) (a >>> s)) := by
    show execSHR cpu ("SHR" :: r :: v :: rest) = _
    unfold execSHR
    simp [hv, hr, Nat.not_le.mpr h2]
  rw [hkey]
  refine ⟨rfl, ?_⟩
  show insertStore _ _ _ _ = _
  unfold insertStore
  rw [if_pos rfl]
  have hz : a >>> s = 0 := by
    rw [Nat.shiftRight_eq_div_pow]
    apply Nat.div_eq_of_lt
    calc a ≤ maskOf cpu.bits := ha
      _ < 2 ^ cpu.bits.bitsCount := by
          rw [maskOf_eq_sub]
          exact Nat.sub_lt (Nat.two_pow_pos _) (by norm_num)
      _ ≤ 2 ^ s := Nat.pow_le_pow_right (by norm_num) h1
  rw [hz]
  show some (cpu.to_masked 0) = some 0
  rw [to_masked_eq_mod]
  simp

/-- `MOV` unconditionally inserts its (comma-trimmed) destination token,
adding the key when it does not exist. -/
theorem mov_inserts (cpu : CPU) (r v : String) (rest : List String) (b : Nat)
    (hv : cpu.get_value v = .ok b) :
    cpu.executeParts ("MOV" :: r :: v :: rest) =
      (.ok, { cpu with registers := insertStore cpu.registers (trimEndCommas r) (cpu.to_masked b) }) := by
  show execMOV cpu ("MOV" :: r :: v :: rest) = _
  unfold execMOV
  simp [hv]

/-- `LOAD` at an out-of-range address succeeds, writing zero to the
destination register (`unwrap_or(0)`), with memory untouched. -/
theorem load_oob (cpu : CPU) (r v : String) (rest : List String) (av : Nat)
    (hv : cpu.get_value v = .ok av)
    (hlen : cpu.memory.length ≤ av % 2 ^ 64) :
    cpu.executeParts ("LOAD" :: r :: v :: rest) =
      (.ok, { cpu with registers := insertStore cpu.registers (trimEndCommas r) 0 }) := by
  show execLOAD cpu ("LOAD" :: r :: v :: rest) = _
  unfold execLOAD
  have h64 : cpu.memory[av % 18446744073709551616]? = none := List.getElem?_eq_none hlen
  simp [hv, h64]

/-- `STORE` at an out-of-range address returns the memory error before
any mutation. -/
theorem store_oob (cpu : CPU) (r v : String) (rest : List String) (av : Nat)
    (hv : cpu.get_value v = .ok av)
    (hlen : cpu.memory.length ≤ av % 2 ^ 64) :
    cpu.executeParts ("STORE" :: r :: v :: rest) = (.err "Memory out of bounds", cpu) := by
  show execSTORE cpu ("STORE" :: r :: v :: rest) = _
  unfold execSTORE
  simp [hv, hlen]
  intro h
  exact absurd h (Nat.not_lt.mpr hlen)

/-- A zero divisor is rejected with `Err` before any state is touched. -/
theorem div_zero_err (cpu : CPU) (r v : String) (rest : List String)
    (h : cpu.get_value v = .ok 0) :
    cpu.executeParts ("DIV" :: r :: v :: rest) = (.err "Division by zero", cpu) := by
  show execDIV cpu ("DIV" :: r :: v :: rest) = _
  unfold execDIV
  simp [h]

/-- A `SHL` amount `≥ 128` hits the `u128` shift-amount overflow: a panic,
with the register unchanged. -/
theorem shl_amount_panic (cpu : CPU) (r v : String) (rest : List String) (a s : Nat)
    (hr : cpu.registers (trimEndCommas r) = some a)
    (hv : cpu.get_value v = .ok s)
    (hs : 128 ≤ s) :
    cpu.executeParts ("SHL" :: r :: v :: rest) = (.panic, cpu) := by
  show execSHL cpu ("SHL" :: r :: v :: rest) = _
  unfold execSHL
  simp [hv, hr, hs]

/-- A `SHR` amount `≥ 128` likewise panics. -/
theorem shr_amount_panic (cpu : CPU) (r v : String) (rest : List String) (a s : Nat)
    (hr : cpu.registers (trimEndCommas r) = some a)
    (hv : cpu.get_value v = .ok s)
    (hs : 128 ≤ s) :
    cpu.executeParts ("SHR" :: r :: v :: rest) = (.panic, cpu) := by
  show execSHR cpu ("SHR" :: r :: v :: rest) = _
  unfold execSHR
  simp [hv, hr, hs]

/-- The `MUL` arm never calls `set_flag`: the flag map is returned as it
was, on every path (error, panic and success alike). -/
theorem mul_flags_unchanged (cpu : CPU) (rest : List String) :
    (cpu.executeParts ("MUL" :: rest)).2.flags = cpu.flags := by
  show (execMUL cpu ("MUL" :: rest)).2.flags = cpu.flags
  unfold execMUL
  repeat' split
  all_goals first
    | rfl
    | exact commit_flags _ _ _

/-- The `DIV` arm never calls `set_flag` either. -/
theorem div_flags_unchanged (cpu : CPU) (rest : List String) :
    (cpu.executeParts ("DIV" :: rest)).2.flags = cpu.flags := by
  show (execDIV cpu ("DIV" :: rest)).2.flags = cpu.flags
  unfold execDIV
  repeat' split
  all_goals first
    | rfl
    | exact commit_flags _ _ _

end Till128

/-! ## Helper lemmas: the `brain-overflow-all.rs` engine -/

namespace BrainOverflow

theorem bo_set_flag_registers (cpu : BOCPU) (name : String) (b : Bool) :
    (cpu.set_flag name b).registers = cpu.registers := by
  unfold BOCPU.set_flag; split <;> rfl

theorem bo_set_flag_bits (cpu : BOCPU) (name : String) (b : Bool) :
    (cpu.set_flag name b).bits = cpu.bits := by
  unfold BOCPU.set_flag; split <;> rfl

theorem bo_set_flag_memory (cpu : BOCPU) (name : String) (b : Bool) :
    (cpu.set_flag name b).memory = cpu.memory := by
  unfold BOCPU.set_flag; split <;> rfl

theorem bo_set_flag_flags_ne (s name : String) (h : s ≠ name) (cpu : BOCPU) (b : Bool) :
    (cpu.set_flag name b).flags s = cpu.flags s := by
  unfold BOCPU.set_flag
  split
  · simp [h]
  · rfl

theorem boCommit_registers (c : BOCPU) (k : String) (v : Nat) :
    (boCommit c k v).registers = insertStore c.registers k (c.to_masked v) := rfl

theorem boCommit_bits (c : BOCPU) (k : String) (v : Nat) :
    (boCommit c k v).bits = c.bits := rfl

theorem boCommit_memory (c : BOCPU) (k : String) (v : Nat) :
    (boCommit c k v).memory = c.memory := rfl

theorem boCommit_flags (c : BOCPU) (k : String) (v : Nat) :
    (boCommit c k v).flags = c.flags := rfl

theorem bo_to_masked_le (cpu : BOCPU) (v : Nat) :
    cpu.to_masked v ≤ cpu.bits.maskOf := Nat.and_le_right

/-- One successful step of the bignum engine preserves the range invariant. -/
theorem bo_step_inRange (cpu cpu' : BOCPU) (i : Instr)
    (h : step cpu i = some cpu') (hinv : BOInRange cpu) : BOInRange cpu' := by
  obtain ⟨hr, hm⟩ := hinv
  cases i <;>
    simp only [step, BOCPU.add, BOCPU.sub, BOCPU.mul, BOCPU.div, BOCPU.bitwise_op,
      BOCPU.shl, BOCPU.shr, BOCPU.load, BOCPU.store] at h <;>
    repeat' split at h
  all_goals try exact Option.noConfusion h
  all_goals injection h with h
  all_goals subst h
  all_goals refine ⟨?_, ?_⟩
  all_goals try simp only [bo_set_flag_registers, bo_set_flag_bits, bo_set_flag_memory,
    boCommit_registers, boCommit_bits, boCommit_memory]
  all_goals first
    | exact hr
    | exact hm
    | (apply Till128.insertStore_le _ _ _ _ hr; exact bo_to_masked_le _ _)
    | (apply Till128.insertStore_le _ _ _ _ hr; exact Till128.getD_le _ _ _ hm)
    | (apply Till128.mem_set_le _ _ _ _ hm; exact bo_to_masked_le _ _)

/-- One successful step never turns OVERFLOW or SIGN on: the methods only
ever call `set_flag` with the name ZERO. -/
theorem bo_step_flags (cpu cpu' : BOCPU) (i : Instr)
    (h : step cpu i = some cpu')
    (hov : cpu.flags "OVERFLOW" = some false) (hsg : cpu.flags "SIGN" = some false) :
    cpu'.flags "OVERFLOW" = some false ∧ cpu'.flags "SIGN" = some false := by
  cases i <;>
    simp only [step, BOCPU.add, BOCPU.sub, BOCPU.mul, BOCPU.div, BOCPU.bitwise_op,
      BOCPU.shl, BOCPU.shr, BOCPU.load, BOCPU.store] at h <;>
    repeat' split at h
  all_goals try exact Option.noConfusion h
  all_goals injection h with h
  all_goals subst h
  all_goals refine ⟨?_, ?_⟩
  all_goals try simp only [boCommit_flags,
    bo_set_flag_flags_ne "OVERFLOW" "ZERO" (by decide),
    bo_set_flag_flags_ne "SIGN" "ZERO" (by decide)]
  all_goals first | exact hov | exact hsg

/-- One successful step preserves the configured width. -/
theorem bo_step_bits (cpu cpu' : BOCPU) (i : Instr)
    (h : step cpu i = some cpu') : cpu'.bits = cpu.bits := by
  cases i <;>
    simp only [step, BOCPU.add, BOCPU.sub, BOCPU.mul, BOCPU.div, BOCPU.bitwise_op,
      BOCPU.shl, BOCPU.shr, BOCPU.load, BOCPU.store] at h <;>
    repeat' split at h
  all_goals try exact Option.noConfusion h
  all_goals injection h with h
  all_goals subst h
  all_goals try simp only [bo_set_flag_bits, boCommit_bits]
  all_goals rfl

theorem bo_run_inRange (prog : List Instr) :
    ∀ cpu cpu' : BOCPU, run cpu prog = some cpu' → BOInRange cpu → BOInRange cpu' := by
  induction prog with
  | nil =>
    intro cpu cpu' h hin
    injection h with h
    exact h ▸ hin
  | cons i is ih =>
    intro cpu cpu' h hin
    unfold run at h
    cases hs : step cpu i with
    | none => rw [hs] at h; exact Option.noConfusion h
    | some c => rw [hs] at h; exact ih c cpu' h (bo_step_inRange cpu c i hs hin)

theorem bo_run_flags (prog : List Instr) :
    ∀ cpu cpu' : BOCPU, run cpu prog = some cpu' →
      cpu.flags "OVERFLOW" = some false → cpu.flags "SIGN" = some false →
      cpu'.flags "OVERFLOW" = some false ∧ cpu'.flags "SIGN" = some false := by
  induction prog with
  | nil =>
    intro cpu cpu' h hov hsg
    injection h with h
    exact h ▸ ⟨hov, hsg⟩
  | cons i is ih =>
    intro cpu cpu' h hov hsg
    unfold run at h
    cases hs : step cpu i with
    | none => rw [hs] at h; exact Option.noConfusion h
    | some c =>
      rw [hs] at h
      obtain ⟨h1, h2⟩ := bo_step_flags cpu c i hs hov hsg
      exact ih c cpu' h h1 h2

theorem bo_run_bits (prog : List Instr) :
    ∀ cpu cpu' : BOCPU, run cpu prog = some cpu' → cpu'.bits = cpu.bits := by
  induction prog with
  | nil =>
    intro cpu cpu' h
    injection h with h
    rw [h]
  | cons i is ih =>
    intro cpu cpu' h
    unfold run at h
    cases hs : step cpu i with
    | none => rw [hs] at h; exact Option.noConfusion h
    | some c =>
      rw [hs] at h
      calc cpu'.bits = c.bits := ih c cpu' h
        _ = cpu.bits := bo_step_bits cpu c i hs

theorem bo_new_inRange (bits : BOWidth) (rc ms : Nat) : BOInRange (BOCPU.new bits rc ms) := by
  refine ⟨fun s v h => ?_, fun v hv => ?_⟩
  · unfold BOCPU.new at h
    dsimp at h
    split at h
    · cases h; exact Nat.zero_le _
    · exact Option.noConfusion h
  · have hv' : v ∈ List.replicate ms 0 := hv
    have := List.eq_of_mem_replicate hv'
    simp [this]

theorem bo_new_flags_ov (bits : BOWidth) (rc ms : Nat) :
    (BOCPU.new bits rc ms).flags "OVERFLOW" = some false := rfl

theorem bo_new_flags_sg (bits : BOWidth) (rc ms : Nat) :
    (BOCPU.new bits rc ms).flags "SIGN" = some false := rfl

/-- `CPU::div` with a zero divisor silently returns, touching nothing. -/
theorem bo_div_zero (cpu : BOCPU) (reg : String) : cpu.div reg 0 = some cpu := by
  unfold BOCPU.div
  simp

/-- `CPU::load` at an out-of-range address is a silent no-op. -/
theorem bo_load_oob (cpu : BOCPU) (reg : String) (addr : Nat)
    (h : cpu.memory.length ≤ addr) : cpu.load reg addr = some cpu := by
  unfold BOCPU.load
  rw [if_neg (Nat.not_lt.mpr h)]

/-- `CPU::store` at an out-of-range address is a silent no-op. -/
theorem bo_store_oob (cpu : BOCPU) (reg : String) (addr : Nat)
    (h : cpu.memory.length ≤ addr) : cpu.store reg addr = some cpu := by
  unfold BOCPU.store
  rw [if_neg (Nat.not_lt.mpr h)]

/-- Writing a flag whose name exists stores the new value. -/
theorem bo_set_flag_flags_self (cpu : BOCPU) (name : String) (b : Bool)
    (h : (cpu.flags name).isSome = true) :
    (cpu.set_flag name b).flags name = some b := by
  unfold BOCPU.set_flag
  split
  · simp
  · simp_all

theorem bo_maskOf_eq_sub (w : BOWidth) : w.maskOf = 2 ^ w.bitsCount - 1 := by
  cases w <;> rfl

theorem bo_to_masked_eq_mod (cpu : BOCPU) (v : Nat) :
    cpu.to_masked v = v % 2 ^ cpu.bits.bitsCount := by
  unfold BOCPU.to_masked
  rw [bo_maskOf_eq_sub, Nat.and_pow_two_sub_one_eq_mod]

/-- `CPU::add` on an existing register succeeds, stores the masked
unbounded sum, and leaves `CARRY` exactly as it was. -/
theorem bo_add_map (cpu : BOCPU) (reg : String) (val r_val : Nat)
    (hr : cpu.registers reg = some r_val) :
    (cpu.add reg val).map (fun c => c.registers reg)
      = some (some ((r_val + val) % 2 ^ cpu.bits.bitsCount)) ∧
    (cpu.add reg val).map (fun c => c.flags "CARRY") = some (cpu.flags "CARRY") := by
  have h : cpu.add reg val
      = some ((boCommit cpu reg (r_val + val)).set_flag "ZERO"
          (decide (r_val + val = 0))) := by
    simp only [BOCPU.add, hr]
  rw [h]
  constructor
  · show some (((boCommit cpu reg (r_val + val)).set_flag "ZERO" _).registers reg) = _
    rw [bo_set_flag_registers, boCommit_registers]
    show some (insertStore _ _ _ _) = _
    unfold insertStore
    rw [if_pos rfl, bo_to_masked_eq_mod]
  · show some (((boCommit cpu reg (r_val + val)).set_flag "ZERO" _).flags "CARRY") = _
    rw [bo_set_flag_flags_ne "CARRY" "ZERO" (by decide), boCommit_flags]

/-- `CPU::sub` on an existing register succeeds, stores the masked
saturating difference (0 when the subtrahend exceeds the register), and
leaves `CARRY` exactly as it was: this engine's `sub` never borrows and
never touches `CARRY`. -/
theorem bo_sub_map (cpu : BOCPU) (reg : String) (val r_val : Nat)
    (hr : cpu.registers reg = some r_val) :
    (cpu.sub reg val).map (fun c => c.registers reg)
      = some (some ((if val ≤ r_val then r_val - val else 0) % 2 ^ cpu.bits.bitsCount)) ∧
    (cpu.sub reg val).map (fun c => c.flags "CARRY") = some (cpu.flags "CARRY") := by
  have h : cpu.sub reg val
      = some ((boCommit cpu reg (if val ≤ r_val then r_val - val else 0)).set_flag "ZERO"
          (decide ((if val ≤ r_val then r_val - val else 0) = 0))) := by
    simp only [BOCPU.sub, hr]
  rw [h]
  constructor
  · show some (((boCommit cpu reg _).set_flag "ZERO" _).registers reg) = _
    rw [bo_set_flag_registers, boCommit_registers]
    show some (insertStore _ _ _ _) = _
    unfold insertStore
    rw [if_pos rfl, bo_to_masked_eq_mod]
  · show some (((boCommit cpu reg _).set_flag "ZERO" _).flags "CARRY") = _
    rw [bo_set_flag_flags_ne "CARRY" "ZERO" (by decide), boCommit_flags]

/-- `CPU::add` computes `ZERO` from the unbounded (pre-mask) sum. -/
theorem bo_add_zero_map (cpu : BOCPU) (reg : String) (val r_val : Nat)
    (hr : cpu.registers reg = some r_val)
    (hz : (cpu.flags "ZERO").isSome = true) :
    (cpu.add reg val).map (fun c => c.flags "ZERO")
      = some (some (decide (r_val + val = 0))) := by
  have h : cpu.add reg val
      = some ((boCommit cpu reg (r_val + val)).set_flag "ZERO"
          (decide (r_val + val = 0))) := by
    simp only [BOCPU.add, hr]
  rw [h]
  show some (((boCommit cpu reg (r_val + val)).set_flag "ZERO" _).flags "ZERO") = _
  rw [bo_set_flag_flags_self _ _ _ (by rw [boCommit_flags]; exact hz)]

/-- `CPU::sub` computes `ZERO` from the pre-mask saturating difference. -/
theorem bo_sub_zero_map (cpu : BOCPU) (reg : String) (val r_val : Nat)
    (hr : cpu.registers reg = some r_val)
    (hz : (cpu.flags "ZERO").isSome = true) :
    (cpu.sub reg val).map (fun c => c.flags "ZERO")
      = some (some (decide ((if val ≤ r_val then r_val - val else 0) = 0))) := by
  have h : cpu.sub reg val
      = some ((boCommit cpu reg (if val ≤ r_val then r_val - val else 0)).set_flag "ZERO"
          (decide ((if val ≤ r_val then r_val - val else 0) = 0))) := by
    simp only [BOCPU.sub, hr]
  rw [h]
  show some (((boCommit cpu reg _).set_flag "ZERO" _).flags "ZERO") = _
  rw [bo_set_flag_flags_self _ _ _ (by rw [boCommit_flags]; exact hz)]

/-- `CPU::mul` computes `ZERO` from the unbounded product. -/
theorem bo_mul_zero_map (cpu : BOCPU) (reg : String) (val r_val : Nat)
    (hr : cpu.registers reg = some r_val)
    (hz : (cpu.flags "ZERO").isSome = true) :
    (cpu.mul reg val).map (fun c => c.flags "ZERO")
      = some (some (decide (r_val * val = 0))) := by
  have h : cpu.mul reg val
      = some ((boCommit cpu reg (r_val * val)).set_flag "ZERO"
          (decide (r_val * val = 0))) := by
    simp only [BOCPU.mul, hr]
  rw [h]
  show some (((boCommit cpu reg (r_val * val)).set_flag "ZERO" _).flags "ZERO") = _
  rw [bo_set_flag_flags_self _ _ _ (by rw [boCommit_flags]; exact hz)]

/-- `CPU::div` with a nonzero divisor computes `ZERO` from the pre-mask
quotient. -/
theorem bo_div_zero_map (cpu : BOCPU) (reg : String) (val r_val : Nat)
    (hval : val ≠ 0)
    (hr : cpu.registers reg = some r_val)
    (hz : (cpu.flags "ZERO").isSome = true) :
    (cpu.div reg val).map (fun c => c.flags "ZERO")
      = some (some (decide (r_val / val = 0))) := by
  have h : cpu.div reg val
      = some ((boCommit cpu reg (r_val / val)).set_flag "ZERO"
          (decide (r_val / val = 0))) := by
    simp only [BOCPU.div, if_neg hval, hr]
  rw [h]
  show some (((boCommit cpu reg (r_val / val)).set_flag "ZERO" _).flags "ZERO") = _
  rw [bo_set_flag_flags_self _ _ _ (by rw [boCommit_flags]; exact hz)]

/-- `CPU::bitwise_op` computes `ZERO` from the pre-mask operation result. -/
theorem bo_bitwise_zero_map (cpu : BOCPU) (reg op : String) (val r_val : Nat)
    (hr : cpu.registers reg = some r_val)
    (hz : (cpu.flags "ZERO").isSome = true) :
    (cpu.bitwise_op reg val op).map (fun c => c.flags "ZERO")
      = some (some (decide (boBitwise r_val val op = 0))) := by
  have h : cpu.bitwise_op reg val op
      = some ((boCommit cpu reg (boBitwise r_val val op)).set_flag "ZERO"
          (decide (boBitwise r_val val op = 0))) := by
    simp only [BOCPU.bitwise_op, hr]
  rw [h]
  show some (((boCommit cpu reg _).set_flag "ZERO" _).flags "ZERO") = _
  rw [bo_set_flag_flags_self _ _ _ (by rw [boCommit_flags]; exact hz)]

end BrainOverflow

/-! ## Helper lemmas: two's-complement conversions -/

namespace TwosComp

/-- Bits of the `w`-bit complement `(2 ^ w - 1) - v`: inside the width the
bits of `v` are flipped, outside they are zero. -/
theorem tb_mask_sub : ∀ (w v : Nat), v < 2 ^ w →
    ∀ i, Nat.testBit (2 ^ w - 1 - v) i = (decide (i < w) && !(Nat.testBit v i)) := by
  intro w
  induction w with
  | zero =>
    intro v hv i
    have : v = 0 := by omega
    subst this
    simp
  | succ w ih =>
    intro v hv i
    have hp : 2 ^ (w + 1) = 2 * 2 ^ w := by ring
    have hv2 : v / 2 < 2 ^ w := by omega
    cases i with
    | zero =>
      rw [Nat.testBit_zero, Nat.testBit_zero]
      have h2 : (2 ^ (w + 1) - 1 - v) % 2 = 1 - v % 2 := by omega
      rcases Nat.mod_two_eq_zero_or_one v with h | h <;> simp [h2, h]
    | succ i =>
      rw [Nat.testBit_succ, Nat.testBit_succ]
      have hq : (2 ^ (w + 1) - 1 - v) / 2 = 2 ^ w - 1 - v / 2 := by omega
      rw [hq, ih (v / 2) hv2 i]
      have hiff : (i + 1 < w + 1) ↔ (i < w) := by omega
      simp [hiff]

/-- Masking away the complement of `v` inside an all-ones `w`-bit mask
recovers `v`. -/
theorem ldiff_mask_sub (w v : Nat) (h : v < 2 ^ w) :
    Nat.ldiff (2 ^ w - 1) (2 ^ w - 1 - v) = v := by
  apply Nat.eq_of_testBit_eq
  intro i
  rw [Nat.testBit_ldiff, Nat.testBit_two_pow_sub_one, tb_mask_sub w v h i]
  by_cases hi : i < w
  · simp [hi]
  · have hvi : Nat.testBit v i = false := by
      apply Nat.testBit_lt_two_pow
      calc v < 2 ^ w := h
        _ ≤ 2 ^ i := Nat.pow_le_pow_right (by norm_num) (Nat.le_of_not_lt hi)
    simp [hi, hvi]

/-- For shift amounts up to 30, `1 << n` on i32 is just `2 ^ n`. -/
theorem i32Shl1_small (n : Nat) (h : n ≤ 30) : i32Shl1 n = some ((2 : Int) ^ n) := by
  unfold i32Shl1 i32Wrap
  rw [if_neg (by omega)]
  have hb : (2 : Int) ^ n + 2 ^ 31 < 2 ^ 32 := by
    have : (2 : Int) ^ n ≤ 2 ^ 30 := pow_le_pow_right (by norm_num) h
    have h30 : (2 : Int) ^ 30 + 2 ^ 31 < 2 ^ 32 := by norm_num
    omega
  have hnn : (0 : Int) ≤ 2 ^ n + 2 ^ 31 := by positivity
  rw [Int.emod_eq_of_lt hnn hb]
  norm_num

/-- For widths up to 30 the i32 mask computes without overflow. -/
theorem mask_small (bits : Nat) (h : bits ≤ 30) :
    mask bits = some ((2 : Int) ^ bits - 1) := by
  unfold mask
  rw [i32Shl1_small bits h]
  show i32Chk ((2 : Int) ^ bits - 1) = _
  unfold i32Chk
  rw [if_pos]
  constructor
  · have : (0 : Int) < 2 ^ bits := by positivity
    omega
  · have : (2 : Int) ^ bits ≤ 2 ^ 30 := pow_le_pow_right (by norm_num) h
    have : (2 : Int) ^ 30 < 2 ^ 31 := by norm_num
    omega

/-- `1 &&& k = 0` for odd `k`. -/
theorem ldiff_one_odd (k : Nat) (h : k % 2 = 1) : Nat.ldiff 1 k = 0 := by
  apply Nat.eq_of_testBit_eq
  intro i
  rw [Nat.testBit_ldiff]
  simp only [Nat.zero_testBit]
  cases i with
  | zero =>
    rw [Nat.testBit_zero, Nat.testBit_zero, h]
    simp
  | succ i =>
    rw [Nat.testBit_succ]
    norm_num

end TwosComp

/-! ## Helper lemmas: the `instructions_set.rs` engine -/

namespace InstrSet

/-- For widths up to 30, the engine's i32 mask is `2 ^ bits - 1`. -/
theorem is_mask_small (cpu : ISCPU) (h : cpu.bits ≤ 30) :
    cpu.mask = some ((2 : Int) ^ cpu.bits - 1) := by
  unfold ISCPU.mask
  rw [TwosComp.i32Shl1_small cpu.bits h]
  show i32Chk ((2 : Int) ^ cpu.bits - 1) = _
  unfold i32Chk
  rw [if_pos]
  constructor
  · have : (0 : Int) < 2 ^ cpu.bits := by positivity
    omega
  · have : (2 : Int) ^ cpu.bits ≤ 2 ^ 30 := pow_le_pow_right (by norm_num) h
    have : (2 : Int) ^ 30 < 2 ^ 31 := by norm_num
    omega

/-- A number whose low `b` bits are all ones absorbs the `b`-bit mask. -/
theorem nat_ldiff_mask_of_full (b m : Nat) (h : 2 ^ b ∣ (m + 1)) :
    Nat.ldiff (2 ^ b - 1) m = 0 := by
  have h0 : 0 < 2 ^ b := Nat.two_pow_pos b
  obtain ⟨c, hc⟩ := h
  rcases c with _ | k
  · omega
  · have hm : m % 2 ^ b = 2 ^ b - 1 := by
      have hm' : m = (2 ^ b - 1) + 2 ^ b * k := by
        have : m + 1 = 2 ^ b * k + 2 ^ b := by rw [hc]; ring
        omega
      rw [hm', Nat.add_mul_mod_self_left, Nat.mod_eq_of_lt (by omega)]
    apply Nat.eq_of_testBit_eq
    intro i
    rw [Nat.testBit_ldiff]
    simp only [Nat.zero_testBit, Nat.testBit_two_pow_sub_one]
    by_cases hi : i < b
    · have hbit : m.testBit i = true := by
        have h1 : (m % 2 ^ b).testBit i = (decide (i < b) && m.testBit i) :=
          Nat.testBit_mod_two_pow m b i
        rw [hm, Nat.testBit_two_pow_sub_one] at h1
        simp [hi] at h1
        exact h1
      simp [hi, hbit]
    · simp [hi]

/-- A multiple of `2 ^ b` masked to the low `b` bits is zero, for signed
values of either sign. -/
theorem int_land_mask_eq_zero (x : Int) (b : Nat) (h : ((2 : Int) ^ b) ∣ x) :
    Int.land x ((2 : Int) ^ b - 1) = 0 := by
  have hAB : ((2 ^ b : Nat) : Int) = (2 : Int) ^ b := by push_cast; ring
  have h0 : 0 < 2 ^ b := Nat.two_pow_pos b
  have hmask : ((2 ^ b - 1 : Nat) : Int) = (2 : Int) ^ b - 1 := by
    rw [← hAB]; omega
  rw [← hmask]
  cases x with
  | ofNat n =>
    have hdvd : 2 ^ b ∣ n := by
      rw [← Int.natCast_dvd_natCast, hAB]
      exact h
    show ((n &&& (2 ^ b - 1) : Nat) : Int) = 0
    rw [Nat.and_pow_two_sub_one_eq_mod, Nat.mod_eq_zero_of_dvd hdvd]
    rfl
  | negSucc m =>
    have hdvd : 2 ^ b ∣ (m + 1) := by
      rw [← Int.natCast_dvd_natCast, hAB]
      have hx : Int.negSucc m = -((m + 1 : Nat) : Int) := by
        rw [Int.negSucc_eq]
        push_cast
        ring
      rw [hx] at h
      exact (Int.dvd_neg).mp h
    show ((Nat.ldiff (2 ^ b - 1) m : Nat) : Int) = 0
    rw [nat_ldiff_mask_of_full b m hdvd]
    rfl

/-- The wrapped i32 value differs from the true value by a multiple of
`2 ^ 32`. -/
theorem i32Wrap_dvd_diff (x : Int) : ((2 : Int) ^ 32) ∣ (i32Wrap x - x) := by
  unfold i32Wrap
  have hdenom : (x + 2 ^ 31) % 2 ^ 32 + 2 ^ 32 * ((x + 2 ^ 31) / 2 ^ 32) = x + 2 ^ 31 :=
    Int.emod_add_ediv (x + 2 ^ 31) (2 ^ 32)
  refine ⟨-((x + 2 ^ 31) / 2 ^ 32), ?_⟩
  omega

/-- A masked register shifted left by `width ≤ s < 32` stores zero (the
low `width` bits of the wrapped product are a multiple of `2 ^ width`). -/
theorem is_shl_ge_width (cpu : ISCPU) (r v : String) (rest : List String) (a s : Int)
    (hr : cpu.registers (trimEndCommas r) = some a)
    (ha0 : 0 ≤ a) (ha : a ≤ 2 ^ cpu.bits - 1)
    (hb : cpu.bits ≤ 30)
    (hv : cpu.get_value v = .ok s)
    (hs1 : (cpu.bits : Int) ≤ s) (hs2 : s < 32) :
    (cpu.executeParts ("SHL" :: r :: v :: rest)).1 = .ok ∧
    (cpu.executeParts ("SHL" :: r :: v :: rest)).2.registers (trimEndCommas r) = some 0 := by
  have hkey : cpu.executeParts ("SHL" :: r :: v :: rest)
      = execISSHL cpu ("SHL" :: r :: v :: rest) := rfl
  rw [hkey]
  have hs0 : (0 : Int) ≤ s := le_trans (by positivity) hs1
  have hns : ¬(s < 0 ∨ 32 ≤ s) := by omega
  have hbs : cpu.bits ≤ s.toNat := by omega
  have hz : Int.land (i32Wrap (a * 2 ^ s.toNat)) ((2 : Int) ^ cpu.bits - 1) = 0 := by
    apply int_land_mask_eq_zero
    have hd1 : ((2 : Int) ^ cpu.bits) ∣ a * 2 ^ s.toNat :=
      Dvd.dvd.mul_left (pow_dvd_pow 2 hbs) a
    have hd2 : ((2 : Int) ^ cpu.bits) ∣ (i32Wrap (a * 2 ^ s.toNat) - a * 2 ^ s.toNat) :=
      dvd_trans (pow_dvd_pow 2 (by omega : cpu.bits ≤ 32)) (i32Wrap_dvd_diff _)
    have := dvd_add hd1 hd2
    simpa using this
  unfold execISSHL
  simp [hv, hr, hns, ISCPU.to_twos_complement, is_mask_small cpu hb, hz, isCommit,
    insertStoreI]

/-- A masked register logically shifted right by `width ≤ s < 32` stores
zero (the quotient by `2 ^ s` of a value `< 2 ^ width` is zero). -/
theorem is_shr_ge_width (cpu : ISCPU) (r v : String) (rest : List String) (a s : Int)
    (hr : cpu.registers (trimEndCommas r) = some a)
    (ha0 : 0 ≤ a) (ha : a ≤ 2 ^ cpu.bits - 1)
    (hb : cpu.bits ≤ 30)
    (hv : cpu.get_value v = .ok s)
    (hs1 : (cpu.bits : Int) ≤ s) (hs2 : s < 32) :
    (cpu.executeParts ("SHR" :: r :: v :: rest)).1 = .ok ∧
    (cpu.executeParts ("SHR" :: r :: v :: rest)).2.registers (trimEndCommas r) = some 0 := by
  have hkey : cpu.executeParts ("SHR" :: r :: v :: rest)
      = execISSHR cpu ("SHR" :: r :: v :: rest) := rfl
  rw [hkey]
  have hs0 : (0 : Int) ≤ s := le_trans (by positivity) hs1
  have hns : ¬(s < 0 ∨ 32 ≤ s) := by omega
  have hbits : (2 : Int) ^ cpu.bits ≤ 2 ^ 30 := pow_le_pow_right (by norm_num) hb
  have h32 : (2 : Int) ^ 30 < 2 ^ 32 := by norm_num
  have hmod : a % 2 ^ 32 = a := Int.emod_eq_of_lt ha0 (by omega)
  have hdiv : a / 2 ^ s.toNat = 0 := by
    apply Int.ediv_eq_zero_of_lt ha0
    have : (2 : Int) ^ cpu.bits ≤ 2 ^ s.toNat :=
      pow_le_pow_right (by norm_num) (by omega)
    omega
  have hwrap0 : i32Wrap 0 = 0 := by decide
  have hz : Int.land (i32Wrap ((a % 4294967296) / 2 ^ s.toNat)) ((2 : Int) ^ cpu.bits - 1)
      = 0 := by
    show Int.land (i32Wrap ((a % 2 ^ 32) / 2 ^ s.toNat)) ((2 : Int) ^ cpu.bits - 1) = 0
    rw [hmod, hdiv, hwrap0]
    exact int_land_mask_eq_zero 0 cpu.bits (dvd_zero _)
  unfold execISSHR
  simp [hv, hr, hns, ISCPU.to_twos_complement, is_mask_small cpu hb, hz, isCommit,
    insertStoreI]

/-- An i32 `SHL` amount `≥ 32` is a shift-amount overflow: a panic, with
the register unchanged. -/
theorem is_shl_amount_panic (cpu : ISCPU) (r v : String) (rest : List String) (a s : Int)
    (hr : cpu.registers (trimEndCommas r) = some a)
    (hv : cpu.get_value v = .ok s) (hs : 32 ≤ s) :
    cpu.executeParts ("SHL" :: r :: v :: rest) = (.panic, cpu) := by
  show execISSHL cpu ("SHL" :: r :: v :: rest) = _
  unfold execISSHL
  simp [hv, hr, hs]

/-- An i32 `SHR` amount `≥ 32` likewise panics. -/
theorem is_shr_amount_panic (cpu : ISCPU) (r v : String) (rest : List String) (a s : Int)
    (hr : cpu.registers (trimEndCommas r) = some a)
    (hv : cpu.get_value v = .ok s) (hs : 32 ≤ s) :
    cpu.executeParts ("SHR" :: r :: v :: rest) = (.panic, cpu) := by
  show execISSHR cpu ("SHR" :: r :: v :: rest) = _
  unfold execISSHR
  simp [hv, hr, hs]

end InstrSet

/-! ## The claims -/

/-- C1: for every configured width (all configurable widths of the engines,
each ≥ 1 except that the bignum engine also admits `Custom 0`, where the
bound holds trivially) and every sequence of executed instructions, every
value stored in a register or memory cell lies in `[0, 2 ^ width − 1]`:
every write is masked or copies an already-masked value. Stated for the
`till-128.rs` engine over arbitrary instruction lines, and for the
`brain-overflow-all.rs` engine over arbitrary command sequences. -/
theorem c1_stored_values_in_range :
    (∀ (bits : Till128.CpuWidth) (rc ms : Nat) (lines : List String) (s : String) (v : Nat),
        (Till128.runProgram (Till128.CPU.new bits rc ms) lines).registers s = some v →
        v ≤ 2 ^ bits.bitsCount - 1) ∧
    (∀ (bits : Till128.CpuWidth) (rc ms : Nat) (lines : List String) (v : Nat),
        v ∈ (Till128.runProgram (Till128.CPU.new bits rc ms) lines).memory →
        v ≤ 2 ^ bits.bitsCount - 1) ∧
    (∀ (w : BrainOverflow.BOWidth) (rc ms : Nat) (prog : List BrainOverflow.Instr)
        (cpu' : BrainOverflow.BOCPU) (s : String) (v : Nat),
        BrainOverflow.run (BrainOverflow.BOCPU.new w rc ms) prog = some cpu' →
        cpu'.registers s = some v → v ≤ 2 ^ w.bitsCount - 1) ∧
    (∀ (w : BrainOverflow.BOWidth) (rc ms : Nat) (prog : List BrainOverflow.Instr)
        (cpu' : BrainOverflow.BOCPU) (v : Nat),
        BrainOverflow.run (BrainOverflow.BOCPU.new w rc ms) prog = some cpu' →
        v ∈ cpu'.memory → v ≤ 2 ^ w.bitsCount - 1) := by
  refine ⟨fun bits rc ms lines s v h => ?_, fun bits rc ms lines v h => ?_,
    fun w rc ms prog cpu' s v hrun h => ?_, fun w rc ms prog cpu' v hrun h => ?_⟩
  · have hinv := Till128.runProgram_inRange lines (Till128.CPU.new bits rc ms)
      (Till128.new_inRange bits rc ms)
    have hb := Till128.runProgram_bits lines (Till128.CPU.new bits rc ms)
    have := hinv.1 s v h
    rw [hb] at this
    rwa [Till128.maskOf_eq_sub] at this
  · have hinv := Till128.runProgram_inRange lines (Till128.CPU.new bits rc ms)
      (Till128.new_inRange bits rc ms)
    have hb := Till128.runProgram_bits lines (Till128.CPU.new bits rc ms)
    have := hinv.2 v h
    rw [hb] at this
    rwa [Till128.maskOf_eq_sub] at this
  · have hinv := BrainOverflow.bo_run_inRange prog _ cpu' hrun
      (BrainOverflow.bo_new_inRange w rc ms)
    have hb := BrainOverflow.bo_run_bits prog _ cpu' hrun
    have := hinv.1 s v h
    rw [hb] at this
    cases w <;> exact this
  · have hinv := BrainOverflow.bo_run_inRange prog _ cpu' hrun
      (BrainOverflow.bo_new_inRange w rc ms)
    have hb := BrainOverflow.bo_run_bits prog _ cpu' hrun
    have := hinv.2 v h
    rw [hb] at this
    cases w <;> exact this

/-- C1 witness: concrete register and memory values of both engines after
concrete runs satisfy the bound. -/
theorem c1_stored_values_in_range_witness :
    (5 ≤ 2 ^ Till128.CpuWidth.Bit32.bitsCount - 1) ∧
    (7 ≤ 2 ^ Till128.CpuWidth.Bit32.bitsCount - 1) ∧
    (0 ≤ 2 ^ (BrainOverflow.BOWidth.Custom 8).bitsCount - 1) ∧
    (0 ≤ 2 ^ (BrainOverflow.BOWidth.Custom 8).bitsCount - 1) :=
  ⟨c1_stored_values_in_range.1 .Bit32 8 4 ["MOV R1 5"] "R1" 5 (by decide),
   c1_stored_values_in_range.2.1 .Bit32 8 4 ["MOV R1 7", "STORE R1 2"] 7 (by decide),
   c1_stored_values_in_range.2.2.1 (.Custom 8) 4 4 [] (BrainOverflow.BOCPU.new (.Custom 8) 4 4)
     "R0" 0 rfl (by decide),
   c1_stored_values_in_range.2.2.2 (.Custom 8) 4 4 [] (BrainOverflow.BOCPU.new (.Custom 8) 4 4)
     0 rfl (by decide)⟩

/-- C2: `execute` is atomic with respect to returned errors: whenever it
returns `Err`, the entire CPU state (registers, flags, memory) is exactly
the state before the call — every error is detected before any mutation. -/
theorem c2_execute_atomic_on_error (cpu : Till128.CPU) (line msg : String)
    (h : (cpu.execute line).1 = .err msg) : (cpu.execute line).2 = cpu :=
  Till128.err_unchanged cpu (splitWs line) msg h

/-- C2 witness: a failing line (unknown opcode) leaves a concrete CPU
unchanged. -/
theorem c2_execute_atomic_on_error_witness :
    ((Till128.CPU.new .Bit32 8 16).execute "FLY").2 = Till128.CPU.new .Bit32 8 16 :=
  c2_execute_atomic_on_error (Till128.CPU.new .Bit32 8 16) "FLY"
    "Unknown instruction: FLY" (by decide)

/-- C3 counterexample: at width 32 with the masked operands `2^31` and
`2^31`, the unmasked sum `2^32` reaches `2 ^ width`, so the claim demands
CARRY = true; the code computes the carry with `u128::overflowing_add`,
i.e. at the 128-bit backing width, and leaves CARRY = false. -/
theorem c3_add_carry_counterexample :
    ((((Till128.CPU.new .Bit32 8 16).execute "MOV R1 2147483648").2).registers "R1"
        = some 2147483648) ∧
    2 ^ 32 ≤ 2147483648 + 2147483648 ∧
    ((((Till128.CPU.new .Bit32 8 16).execute "MOV R1 2147483648").2.execute "ADD R1 R1").1
        = .ok) ∧
    ((((Till128.CPU.new .Bit32 8 16).execute "MOV R1 2147483648").2.execute "ADD R1 R1").2.flags
        "CARRY" = some false) := by decide

/-- C3 (amended): the ADD/SUB carry story is engine-specific. In
`till-128.rs`, for masked operands ADD stores `(a + b) mod 2 ^ width` but
sets CARRY iff the sum reaches `2 ^ 128` (the `u128` backing width, which
agrees with the claim only at width 128), and SUB stores the wrapping
difference masked to the width and sets CARRY (borrow) iff `a < b`. In
`brain-overflow-all.rs` / `custom-arch.rs`, ADD stores the masked
unbounded sum and SUB stores the masked saturating difference (0 when the
subtrahend is larger), and neither ever touches CARRY. -/
theorem c3_add_sub_semantics :
    (∀ (cpu : Till128.CPU) (r v : String) (rest : List String) (a b : Nat),
        cpu.registers (trimEndCommas r) = some a →
        cpu.get_value v = .ok b →
        a ≤ Till128.maskOf cpu.bits → b ≤ Till128.maskOf cpu.bits →
        (cpu.flags "ZERO").isSome = true → (cpu.flags "CARRY").isSome = true →
        (cpu.executeParts ("ADD" :: r :: v :: rest)).1 = .ok ∧
        (cpu.executeParts ("ADD" :: r :: v :: rest)).2.registers (trimEndCommas r)
          = some ((a + b) % 2 ^ cpu.bits.bitsCount) ∧
        (cpu.executeParts ("ADD" :: r :: v :: rest)).2.flags "CARRY"
          = some (decide (2 ^ 128 ≤ a + b))) ∧
    (∀ (cpu : Till128.CPU) (r v : String) (rest : List String) (a b : Nat),
        cpu.registers (trimEndCommas r) = some a →
        cpu.get_value v = .ok b →
        a ≤ Till128.maskOf cpu.bits → b ≤ Till128.maskOf cpu.bits →
        (cpu.flags "ZERO").isSome = true → (cpu.flags "CARRY").isSome = true →
        (cpu.executeParts ("SUB" :: r :: v :: rest)).1 = .ok ∧
        (cpu.executeParts ("SUB" :: r :: v :: rest)).2.registers (trimEndCommas r)
          = some ((a + 2 ^ cpu.bits.bitsCount - b) % 2 ^ cpu.bits.bitsCount) ∧
        (cpu.executeParts ("SUB" :: r :: v :: rest)).2.flags "CARRY"
          = some (decide (a < b))) ∧
    (∀ (cpu : BrainOverflow.BOCPU) (reg : String) (val r_val : Nat),
        cpu.registers reg = some r_val →
        (cpu.add reg val).map (fun c => c.registers reg)
          = some (some ((r_val + val) % 2 ^ cpu.bits.bitsCount)) ∧
        (cpu.add reg val).map (fun c => c.flags "CARRY") = some (cpu.flags "CARRY")) ∧
    (∀ (cpu : BrainOverflow.BOCPU) (reg : String) (val r_val : Nat),
        cpu.registers reg = some r_val →
        (cpu.sub reg val).map (fun c => c.registers reg)
          = some (some ((if val ≤ r_val then r_val - val else 0) % 2 ^ cpu.bits.bitsCount)) ∧
        (cpu.sub reg val).map (fun c => c.flags "CARRY") = some (cpu.flags "CARRY")) := by
  refine ⟨?_, ?_, ?_, ?_⟩
  · intro cpu r v rest a b hr hv ha hb hz hc
    obtain ⟨h1, h2, h3, h4⟩ := Till128.add_semantics cpu r v rest a b hr hv hz hc
    exact ⟨h1, h2, h3⟩
  · intro cpu r v rest a b hr hv ha hb hz hc
    obtain ⟨h1, h2, h3, h4⟩ := Till128.sub_semantics cpu r v rest a b hr hv hb hz hc
    exact ⟨h1, h2, h3⟩
  · intro cpu reg val r_val hr
    exact BrainOverflow.bo_add_map cpu reg val r_val hr
  · intro cpu reg val r_val hr
    exact BrainOverflow.bo_sub_map cpu reg val r_val hr

/-- C3 amended witness: concrete ADD and SUB lines on a fresh 32-bit
`till-128` CPU, and a concrete `add`/`sub` on a fresh 8-bit bignum CPU. -/
theorem c3_add_sub_semantics_witness :
    (((Till128.CPU.new .Bit32 8 16).executeParts ["ADD", "R1", "5"]).1 = .ok ∧
     ((Till128.CPU.new .Bit32 8 16).executeParts ["ADD", "R1", "5"]).2.registers
        (trimEndCommas "R1") = some ((0 + 5) % 2 ^ Till128.CpuWidth.Bit32.bitsCount) ∧
     ((Till128.CPU.new .Bit32 8 16).executeParts ["ADD", "R1", "5"]).2.flags "CARRY"
        = some (decide (2 ^ 128 ≤ 0 + 5))) ∧
    (((Till128.CPU.new .Bit32 8 16).executeParts ["SUB", "R1", "5"]).1 = .ok ∧
     ((Till128.CPU.new .Bit32 8 16).executeParts ["SUB", "R1", "5"]).2.registers
        (trimEndCommas "R1")
        = some ((0 + 2 ^ Till128.CpuWidth.Bit32.bitsCount - 5) % 2 ^ Till128.CpuWidth.Bit32.bitsCount) ∧
     ((Till128.CPU.new .Bit32 8 16).executeParts ["SUB", "R1", "5"]).2.flags "CARRY"
        = some (decide (0 < 5))) ∧
    (((BrainOverflow.BOCPU.new (.Custom 8) 4 4).add "R0" 5).map (fun c => c.registers "R0")
        = some (some ((0 + 5) % 2 ^ (BrainOverflow.BOWidth.Custom 8).bitsCount)) ∧
     ((BrainOverflow.BOCPU.new (.Custom 8) 4 4).add "R0" 5).map (fun c => c.flags "CARRY")
        = some ((BrainOverflow.BOCPU.new (.Custom 8) 4 4).flags "CARRY")) ∧
    (((BrainOverflow.BOCPU.new (.Custom 8) 4 4).sub "R0" 5).map (fun c => c.registers "R0")
        = some (some ((if 5 ≤ 0 then 0 - 5 else 0) % 2 ^ (BrainOverflow.BOWidth.Custom 8).bitsCount)) ∧
     ((BrainOverflow.BOCPU.new (.Custom 8) 4 4).sub "R0" 5).map (fun c => c.flags "CARRY")
        = some ((BrainOverflow.BOCPU.new (.Custom 8) 4 4).flags "CARRY")) :=
  ⟨c3_add_sub_semantics.1 (Till128.CPU.new .Bit32 8 16) "R1" "5" [] 0 5
      (by decide) rfl (by decide) (by decide) (by decide) (by decide),
   c3_add_sub_semantics.2.1 (Till128.CPU.new .Bit32 8 16) "R1" "5" [] 0 5
      (by decide) rfl (by decide) (by decide) (by decide) (by decide),
   c3_add_sub_semantics.2.2.1 (BrainOverflow.BOCPU.new (.Custom 8) 4 4) "R0" 5 0
      (by decide),
   c3_add_sub_semantics.2.2.2 (BrainOverflow.BOCPU.new (.Custom 8) 4 4) "R0" 5 0
      (by decide)⟩

/-- C4 counterexample: with memory size 4, `LOAD R1 4` (one past the end)
does not return `MemoryOutOfBounds` — it succeeds and overwrites R1 (which
held 7) with a zero-read. -/
theorem c4_load_oob_counterexample :
    ((((Till128.CPU.new .Bit32 8 4).execute "MOV R1 7").2).memory.length = 4) ∧
    ((((Till128.CPU.new .Bit32 8 4).execute "MOV R1 7").2).registers "R1" = some 7) ∧
    ((((Till128.CPU.new .Bit32 8 4).execute "MOV R1 7").2.execute "LOAD R1 4").1 = .ok) ∧
    ((((Till128.CPU.new .Bit32 8 4).execute "MOV R1 7").2.execute "LOAD R1 4").2.registers
        "R1" = some 0) := by decide

/-- C4 (amended): only STORE rejects an out-of-range address with the
memory error (before any mutation); LOAD at an out-of-range address
succeeds and writes 0 to the destination register. In the bignum engine
both are silent no-ops. -/
theorem c4_oob_semantics :
    (∀ (cpu : Till128.CPU) (r v : String) (rest : List String) (av : Nat),
        cpu.get_value v = .ok av → cpu.memory.length ≤ av % 2 ^ 64 →
        cpu.executeParts ("STORE" :: r :: v :: rest) = (.err "Memory out of bounds", cpu)) ∧
    (∀ (cpu : Till128.CPU) (r v : String) (rest : List String) (av : Nat),
        cpu.get_value v = .ok av → cpu.memory.length ≤ av % 2 ^ 64 →
        cpu.executeParts ("LOAD" :: r :: v :: rest) =
          (.ok, { cpu with registers := insertStore cpu.registers (trimEndCommas r) 0 })) ∧
    (∀ (cpu : BrainOverflow.BOCPU) (reg : String) (addr : Nat),
        cpu.memory.length ≤ addr → cpu.load reg addr = some cpu) ∧
    (∀ (cpu : BrainOverflow.BOCPU) (reg : String) (addr : Nat),
        cpu.memory.length ≤ addr → cpu.store reg addr = some cpu) :=
  ⟨fun cpu r v rest av hv hlen => Till128.store_oob cpu r v rest av hv hlen,
   fun cpu r v rest av hv hlen => Till128.load_oob cpu r v rest av hv hlen,
   fun cpu reg addr h => BrainOverflow.bo_load_oob cpu reg addr h,
   fun cpu reg addr h => BrainOverflow.bo_store_oob cpu reg addr h⟩

/-- C4 amended witness: concrete out-of-range STORE and LOAD on both
engines, at address 4 with memory size 4. -/
theorem c4_oob_semantics_witness :
    ((Till128.CPU.new .Bit32 8 4).executeParts ["STORE", "R1", "4"]
      = (.err "Memory out of bounds", Till128.CPU.new .Bit32 8 4)) ∧
    ((Till128.CPU.new .Bit32 8 4).executeParts ["LOAD", "R1", "4"]
      = (.ok, { Till128.CPU.new .Bit32 8 4 with
          registers := insertStore (Till128.CPU.new .Bit32 8 4).registers (trimEndCommas "R1") 0 })) ∧
    ((BrainOverflow.BOCPU.new (.Custom 8) 4 4).load "R0" 4
      = some (BrainOverflow.BOCPU.new (.Custom 8) 4 4)) ∧
    ((BrainOverflow.BOCPU.new (.Custom 8) 4 4).store "R0" 4
      = some (BrainOverflow.BOCPU.new (.Custom 8) 4 4)) :=
  ⟨c4_oob_semantics.1 (Till128.CPU.new .Bit32 8 4) "R1" "4" [] 4 rfl (by decide),
   c4_oob_semantics.2.1 (Till128.CPU.new .Bit32 8 4) "R1" "4" [] 4 rfl (by decide),
   c4_oob_semantics.2.2.1 (BrainOverflow.BOCPU.new (.Custom 8) 4 4) "R0" 4 (by decide),
   c4_oob_semantics.2.2.2 (BrainOverflow.BOCPU.new (.Custom 8) 4 4) "R0" 4 (by decide)⟩

/-- C5: a `DIV` whose second operand resolves to zero returns the
division-by-zero error with the whole state — in particular the target
register — unchanged; the bignum engine's `div` likewise never mutates on
a zero divisor (it silently returns). -/
theorem c5_div_by_zero :
    (∀ (cpu : Till128.CPU) (r v : String) (rest : List String),
        cpu.get_value v = .ok 0 →
        cpu.executeParts ("DIV" :: r :: v :: rest) = (.err "Division by zero", cpu)) ∧
    (∀ (cpu : BrainOverflow.BOCPU) (reg : String), cpu.div reg 0 = some cpu) :=
  ⟨fun cpu r v rest h => Till128.div_zero_err cpu r v rest h,
   fun cpu reg => BrainOverflow.bo_div_zero cpu reg⟩

/-- C5 witness: a concrete `DIV R1 0`. -/
theorem c5_div_by_zero_witness :
    ((Till128.CPU.new .Bit32 8 16).executeParts ["DIV", "R1", "0"]
      = (.err "Division by zero", Till128.CPU.new .Bit32 8 16)) ∧
    ((BrainOverflow.BOCPU.new (.Custom 8) 4 4).div "R0" 0
      = some (BrainOverflow.BOCPU.new (.Custom 8) 4 4)) :=
  ⟨c5_div_by_zero.1 (Till128.CPU.new .Bit32 8 16) "R1" "0" [] rfl,
   c5_div_by_zero.2 (BrainOverflow.BOCPU.new (.Custom 8) 4 4) "R0"⟩

/-- C6 counterexample: at width 32 a shift amount of 128 is `≥ width`, so
the claim demands that `SHL R1 128` store 0; instead the `u128` shift
panics on the overlong amount and R1 keeps its old value 1. -/
theorem c6_shift_counterexample :
    (Till128.CpuWidth.Bit32.bitsCount ≤ 128) ∧
    ((((Till128.CPU.new .Bit32 8 16).execute "MOV R1 1").2.execute "SHL R1 128").1
        = .panic) ∧
    ((((Till128.CPU.new .Bit32 8 16).execute "MOV R1 1").2.execute "SHL R1 128").2.registers
        "R1" = some 1) := by decide

/-- C6 (amended): a shift amount at or above the configured width zeroes
the register only below the backing width `B` of the engine's integer
type, and panics at or above `B`. In `till-128.rs` (`B = 128`, `u128`):
for a masked register and `width ≤ s < 128`, SHL and SHR store 0; `s ≥
128` hits the `u128` shift-amount panic with the register unchanged. In
`instructions_set.rs` (`B = 32`, `i32`): for a masked register, a
computable width `≤ 30` and `width ≤ s < 32`, SHL and SHR store 0; `s ≥
32` hits the i32 shift-amount panic. -/
theorem c6_shift_ge_width_zero :
    (∀ (cpu : Till128.CPU) (r v : String) (rest : List String) (a s : Nat),
        cpu.registers (trimEndCommas r) = some a →
        a ≤ Till128.maskOf cpu.bits →
        cpu.get_value v = .ok s →
        cpu.bits.bitsCount ≤ s → s < 128 →
        (cpu.executeParts ("SHL" :: r :: v :: rest)).1 = .ok ∧
        (cpu.executeParts ("SHL" :: r :: v :: rest)).2.registers (trimEndCommas r) = some 0) ∧
    (∀ (cpu : Till128.CPU) (r v : String) (rest : List String) (a s : Nat),
        cpu.registers (trimEndCommas r) = some a →
        a ≤ Till128.maskOf cpu.bits →
        cpu.get_value v = .ok s →
        cpu.bits.bitsCount ≤ s → s < 128 →
        (cpu.executeParts ("SHR" :: r :: v :: rest)).1 = .ok ∧
        (cpu.executeParts ("SHR" :: r :: v :: rest)).2.registers (trimEndCommas r) = some 0) ∧
    (∀ (cpu : Till128.CPU) (r v : String) (rest : List String) (a s : Nat),
        cpu.registers (trimEndCommas r) = some a →
        cpu.get_value v = .ok s →
        128 ≤ s →
        cpu.executeParts ("SHL" :: r :: v :: rest) = (.panic, cpu)) ∧
    (∀ (cpu : Till128.CPU) (r v : String) (rest : List String) (a s : Nat),
        cpu.registers (trimEndCommas r) = some a →
        cpu.get_value v = .ok s →
        128 ≤ s →
        cpu.executeParts ("SHR" :: r :: v :: rest) = (.panic, cpu)) ∧
    (∀ (cpu : InstrSet.ISCPU) (r v : String) (rest : List String) (a s : Int),
        cpu.registers (trimEndCommas r) = some a →
        0 ≤ a → a ≤ 2 ^ cpu.bits - 1 →
        cpu.bits ≤ 30 →
        cpu.get_value v = .ok s →
        (cpu.bits : Int) ≤ s → s < 32 →
        (cpu.executeParts ("SHL" :: r :: v :: rest)).1 = .ok ∧
        (cpu.executeParts ("SHL" :: r :: v :: rest)).2.registers (trimEndCommas r) = some 0) ∧
    (∀ (cpu : InstrSet.ISCPU) (r v : String) (rest : List String) (a s : Int),
        cpu.registers (trimEndCommas r) = some a →
        0 ≤ a → a ≤ 2 ^ cpu.bits - 1 →
        cpu.bits ≤ 30 →
        cpu.get_value v = .ok s →
        (cpu.bits : Int) ≤ s → s < 32 →
        (cpu.executeParts ("SHR" :: r :: v :: rest)).1 = .ok ∧
        (cpu.executeParts ("SHR" :: r :: v :: rest)).2.registers (trimEndCommas r) = some 0) ∧
    (∀ (cpu : InstrSet.ISCPU) (r v : String) (rest : List String) (a s : Int),
        cpu.registers (trimEndCommas r) = some a →
        cpu.get_value v = .ok s →
        32 ≤ s →
        cpu.executeParts ("SHL" :: r :: v :: rest) = (.panic, cpu)) ∧
    (∀ (cpu : InstrSet.ISCPU) (r v : String) (rest : List String) (a s : Int),
        cpu.registers (trimEndCommas r) = some a →
        cpu.get_value v = .ok s →
        32 ≤ s →
        cpu.executeParts ("SHR" :: r :: v :: rest) = (.panic, cpu)) :=
  ⟨fun cpu r v rest a s hr ha hv h1 h2 => Till128.shl_ge_width cpu r v rest a s hr ha hv h1 h2,
   fun cpu r v rest a s hr ha hv h1 h2 => Till128.shr_ge_width cpu r v rest a s hr ha hv h1 h2,
   fun cpu r v rest a s hr hv hs => Till128.shl_amount_panic cpu r v rest a s hr hv hs,
   fun cpu r v rest a s hr hv hs => Till128.shr_amount_panic cpu r v rest a s hr hv hs,
   fun cpu r v rest a s hr ha0 ha hb hv h1 h2 =>
     InstrSet.is_shl_ge_width cpu r v rest a s hr ha0 ha hb hv h1 h2,
   fun cpu r v rest a s hr ha0 ha hb hv h1 h2 =>
     InstrSet.is_shr_ge_width cpu r v rest a s hr ha0 ha hb hv h1 h2,
   fun cpu r v rest a s hr hv hs => InstrSet.is_shl_amount_panic cpu r v rest a s hr hv hs,
   fun cpu r v rest a s hr hv hs => InstrSet.is_shr_amount_panic cpu r v rest a s hr hv hs⟩

/-- C6 amended witness: at `till-128` width 32, shifting by 32 stores 0
and shifting by 128 panics; at `instructions_set` width 8, shifting by 8
stores 0 and shifting by 40 panics. -/
theorem c6_shift_ge_width_zero_witness :
    (((Till128.CPU.new .Bit32 8 16).executeParts ["SHL", "R1", "32"]).1 = .ok ∧
     ((Till128.CPU.new .Bit32 8 16).executeParts ["SHL", "R1", "32"]).2.registers
        (trimEndCommas "R1") = some 0) ∧
    (((Till128.CPU.new .Bit32 8 16).executeParts ["SHR", "R1", "32"]).1 = .ok ∧
     ((Till128.CPU.new .Bit32 8 16).executeParts ["SHR", "R1", "32"]).2.registers
        (trimEndCommas "R1") = some 0) ∧
    ((Till128.CPU.new .Bit32 8 16).executeParts ["SHL", "R1", "128"]
        = (.panic, Till128.CPU.new .Bit32 8 16)) ∧
    ((Till128.CPU.new .Bit32 8 16).executeParts ["SHR", "R1", "128"]
        = (.panic, Till128.CPU.new .Bit32 8 16)) ∧
    (((InstrSet.ISCPU.new 8).executeParts ["SHL", "R1", "8"]).1 = .ok ∧
     ((InstrSet.ISCPU.new 8).executeParts ["SHL", "R1", "8"]).2.registers
        (trimEndCommas "R1") = some 0) ∧
    (((InstrSet.ISCPU.new 8).executeParts ["SHR", "R1", "8"]).1 = .ok ∧
     ((InstrSet.ISCPU.new 8).executeParts ["SHR", "R1", "8"]).2.registers
        (trimEndCommas "R1") = some 0) ∧
    ((InstrSet.ISCPU.new 8).executeParts ["SHL", "R1", "40"]
        = (.panic, InstrSet.ISCPU.new 8)) ∧
    ((InstrSet.ISCPU.new 8).executeParts ["SHR", "R1", "40"]
        = (.panic, InstrSet.ISCPU.new 8)) :=
  ⟨c6_shift_ge_width_zero.1 (Till128.CPU.new .Bit32 8 16) "R1" "32" [] 0 32
      (by decide) (by decide) rfl (by decide) (by decide),
   c6_shift_ge_width_zero.2.1 (Till128.CPU.new .Bit32 8 16) "R1" "32" [] 0 32
      (by decide) (by decide) rfl (by decide) (by decide),
   c6_shift_ge_width_zero.2.2.1 (Till128.CPU.new .Bit32 8 16) "R1" "128" [] 0 128
      (by decide) rfl (by decide),
   c6_shift_ge_width_zero.2.2.2.1 (Till128.CPU.new .Bit32 8 16) "R1" "128" [] 0 128
      (by decide) rfl (by decide),
   c6_shift_ge_width_zero.2.2.2.2.1 (InstrSet.ISCPU.new 8) "R1" "8" [] 0 8
      (by decide) (by decide) (by decide) (by decide) rfl (by decide) (by decide),
   c6_shift_ge_width_zero.2.2.2.2.2.1 (InstrSet.ISCPU.new 8) "R1" "8" [] 0 8
      (by decide) (by decide) (by decide) (by decide) rfl (by decide) (by decide),
   c6_shift_ge_width_zero.2.2.2.2.2.2.1 (InstrSet.ISCPU.new 8) "R1" "40" [] 0 40
      (by decide) rfl (by decide),
   c6_shift_ge_width_zero.2.2.2.2.2.2.2 (InstrSet.ISCPU.new 8) "R1" "40" [] 0 40
      (by decide) rfl (by decide)⟩

/-- C7 counterexample: after `ADD R1 R1` with R1 = `2^31` at width 32, the
masked stored result is 0, yet the ZERO flag is false — the zero test ran
on the unmasked 128-bit intermediate `2^32`, not on the masked result. -/
theorem c7_zero_flag_counterexample :
    ((((Till128.CPU.new .Bit32 8 16).execute "MOV R1 2147483648").2.execute "ADD R1 R1").2.registers
        "R1" = some 0) ∧
    ((((Till128.CPU.new .Bit32 8 16).execute "MOV R1 2147483648").2.execute "ADD R1 R1").2.flags
        "ZERO" = some false) := by decide

/-- C7 (amended): the ZERO flag is always computed from the pre-mask
intermediate, never from the masked stored value, and which instructions
update it is engine-specific. In `till-128.rs` only ADD and SUB update
flags — ZERO is `(a + b) mod 2 ^ 128 == 0` for ADD and the `u128`
wrapping difference test for SUB (coinciding with the masked test only at
width 128) — while MUL and DIV leave the whole flag map untouched on
every path. In `brain-overflow-all.rs` / `custom-arch.rs`, `add`, `sub`,
`mul`, `div` (nonzero divisor) and `bitwise_op` all set ZERO, each from
its unbounded (pre-mask) result. -/
theorem c7_zero_flag_premask :
    (∀ (cpu : Till128.CPU) (r v : String) (rest : List String) (a b : Nat),
        cpu.registers (trimEndCommas r) = some a →
        cpu.get_value v = .ok b →
        (cpu.flags "ZERO").isSome = true → (cpu.flags "CARRY").isSome = true →
        (cpu.executeParts ("ADD" :: r :: v :: rest)).2.flags "ZERO"
          = some (decide ((a + b) % 2 ^ 128 = 0))) ∧
    (∀ (cpu : Till128.CPU) (r v : String) (rest : List String) (a b : Nat),
        cpu.registers (trimEndCommas r) = some a →
        cpu.get_value v = .ok b →
        b ≤ Till128.maskOf cpu.bits →
        (cpu.flags "ZERO").isSome = true → (cpu.flags "CARRY").isSome = true →
        (cpu.executeParts ("SUB" :: r :: v :: rest)).2.flags "ZERO"
          = some (decide (Till128.wrapSub a b = 0))) ∧
    (∀ (cpu : Till128.CPU) (rest : List String),
        (cpu.executeParts ("MUL" :: rest)).2.flags = cpu.flags) ∧
    (∀ (cpu : Till128.CPU) (rest : List String),
        (cpu.executeParts ("DIV" :: rest)).2.flags = cpu.flags) ∧
    (∀ (cpu : BrainOverflow.BOCPU) (reg : String) (val r_val : Nat),
        cpu.registers reg = some r_val →
        (cpu.flags "ZERO").isSome = true →
        (cpu.add reg val).map (fun c => c.flags "ZERO")
          = some (some (decide (r_val + val = 0)))) ∧
    (∀ (cpu : BrainOverflow.BOCPU) (reg : String) (val r_val : Nat),
        cpu.registers reg = some r_val →
        (cpu.flags "ZERO").isSome = true →
        (cpu.sub reg val).map (fun c => c.flags "ZERO")
          = some (some (decide ((if val ≤ r_val then r_val - val else 0) = 0)))) ∧
    (∀ (cpu : BrainOverflow.BOCPU) (reg : String) (val r_val : Nat),
        cpu.registers reg = some r_val →
        (cpu.flags "ZERO").isSome = true →
        (cpu.mul reg val).map (fun c => c.flags "ZERO")
          = some (some (decide (r_val * val = 0)))) ∧
    (∀ (cpu : BrainOverflow.BOCPU) (reg : String) (val r_val : Nat),
        val ≠ 0 →
        cpu.registers reg = some r_val →
        (cpu.flags "ZERO").isSome = true →
        (cpu.div reg val).map (fun c => c.flags "ZERO")
          = some (some (decide (r_val / val = 0)))) ∧
    (∀ (cpu : BrainOverflow.BOCPU) (reg op : String) (val r_val : Nat),
        cpu.registers reg = some r_val →
        (cpu.flags "ZERO").isSome = true →
        (cpu.bitwise_op reg val op).map (fun c => c.flags "ZERO")
          = some (some (decide (BrainOverflow.boBitwise r_val val op = 0)))) := by
  refine ⟨?_, ?_, ?_, ?_, ?_, ?_, ?_, ?_, ?_⟩
  · intro cpu r v rest a b hr hv hz hc
    exact (Till128.add_semantics cpu r v rest a b hr hv hz hc).2.2.2
  · intro cpu r v rest a b hr hv hb hz hc
    exact (Till128.sub_semantics cpu r v rest a b hr hv hb hz hc).2.2.2
  · intro cpu rest
    exact Till128.mul_flags_unchanged cpu rest
  · intro cpu rest
    exact Till128.div_flags_unchanged cpu rest
  · intro cpu reg val r_val hr hz
    exact BrainOverflow.bo_add_zero_map cpu reg val r_val hr hz
  · intro cpu reg val r_val hr hz
    exact BrainOverflow.bo_sub_zero_map cpu reg val r_val hr hz
  · intro cpu reg val r_val hr hz
    exact BrainOverflow.bo_mul_zero_map cpu reg val r_val hr hz
  · intro cpu reg val r_val hval hr hz
    exact BrainOverflow.bo_div_zero_map cpu reg val r_val hval hr hz
  · intro cpu reg op val r_val hr hz
    exact BrainOverflow.bo_bitwise_zero_map cpu reg op val r_val hr hz

/-- C7 amended witness: concrete ZERO flag values after ADD and SUB, a
concrete flag-preserving MUL and DIV, and concrete bignum `add`, `sub`,
`mul`, `div` and `bitwise_op` runs. -/
theorem c7_zero_flag_premask_witness :
    (((Till128.CPU.new .Bit32 8 16).executeParts ["ADD", "R1", "5"]).2.flags "ZERO"
      = some (decide ((0 + 5) % 2 ^ 128 = 0))) ∧
    (((Till128.CPU.new .Bit32 8 16).executeParts ["SUB", "R1", "0"]).2.flags "ZERO"
      = some (decide (Till128.wrapSub 0 0 = 0))) ∧
    (((Till128.CPU.new .Bit32 8 16).executeParts ["MUL", "R1", "5"]).2.flags
      = (Till128.CPU.new .Bit32 8 16).flags) ∧
    (((Till128.CPU.new .Bit32 8 16).executeParts ["DIV", "R1", "5"]).2.flags
      = (Till128.CPU.new .Bit32 8 16).flags) ∧
    (((BrainOverflow.BOCPU.new (.Custom 8) 4 4).add "R0" 5).map (fun c => c.flags "ZERO")
      = some (some (decide (0 + 5 = 0)))) ∧
    (((BrainOverflow.BOCPU.new (.Custom 8) 4 4).sub "R0" 5).map (fun c => c.flags "ZERO")
      = some (some (decide ((if 5 ≤ 0 then 0 - 5 else 0) = 0)))) ∧
    (((BrainOverflow.BOCPU.new (.Custom 8) 4 4).mul "R0" 5).map (fun c => c.flags "ZERO")
      = some (some (decide (0 * 5 = 0)))) ∧
    (((BrainOverflow.BOCPU.new (.Custom 8) 4 4).div "R0" 5).map (fun c => c.flags "ZERO")
      = some (some (decide (0 / 5 = 0)))) ∧
    (((BrainOverflow.BOCPU.new (.Custom 8) 4 4).bitwise_op "R0" 5 "AND").map
        (fun c => c.flags "ZERO")
      = some (some (decide (BrainOverflow.boBitwise 0 5 "AND" = 0)))) :=
  ⟨c7_zero_flag_premask.1 (Till128.CPU.new .Bit32 8 16) "R1" "5" [] 0 5
      (by decide) rfl (by decide) (by decide),
   c7_zero_flag_premask.2.1 (Till128.CPU.new .Bit32 8 16) "R1" "0" [] 0 0
      (by decide) rfl (by decide) (by decide) (by decide),
   c7_zero_flag_premask.2.2.1 (Till128.CPU.new .Bit32 8 16) ["R1", "5"],
   c7_zero_flag_premask.2.2.2.1 (Till128.CPU.new .Bit32 8 16) ["R1", "5"],
   c7_zero_flag_premask.2.2.2.2.1 (BrainOverflow.BOCPU.new (.Custom 8) 4 4) "R0" 5 0
      (by decide) (by decide),
   c7_zero_flag_premask.2.2.2.2.2.1 (BrainOverflow.BOCPU.new (.Custom 8) 4 4) "R0" 5 0
      (by decide) (by decide),
   c7_zero_flag_premask.2.2.2.2.2.2.1 (BrainOverflow.BOCPU.new (.Custom 8) 4 4) "R0" 5 0
      (by decide) (by decide),
   c7_zero_flag_premask.2.2.2.2.2.2.2.1 (BrainOverflow.BOCPU.new (.Custom 8) 4 4) "R0" 5 0
      (by decide) (by decide) (by decide),
   c7_zero_flag_premask.2.2.2.2.2.2.2.2 (BrainOverflow.BOCPU.new (.Custom 8) 4 4) "R0" "AND" 5 0
      (by decide) (by decide)⟩

/-- C8 counterexample: `MOV FOO 5` on a fresh CPU succeeds and adds the
brand-new key "FOO" to the register file, so the key set is not immutable
after construction. -/
theorem c8_mov_adds_key_counterexample :
    ((Till128.CPU.new .Bit32 8 16).registers "FOO" = none) ∧
    (((Till128.CPU.new .Bit32 8 16).execute "MOV FOO 5").1 = .ok) ∧
    (((Till128.CPU.new .Bit32 8 16).execute "MOV FOO 5").2.registers "FOO" = some 5) := by
  decide

/-- C8 (amended): no instruction ever removes a register key; MOV (and
LOAD) insert their destination token unconditionally, adding the key when
it is absent; every other opcode writes only registers that already exist
and never adds a key. -/
theorem c8_key_set_semantics :
    (∀ (cpu : Till128.CPU) (parts : List String) (s : String) (w : Nat),
        cpu.registers s = some w →
        ∃ w', (cpu.executeParts parts).2.registers s = some w') ∧
    (∀ (cpu : Till128.CPU) (r v : String) (rest : List String) (b : Nat),
        cpu.get_value v = .ok b →
        (cpu.executeParts ("MOV" :: r :: v :: rest)).2.registers (trimEndCommas r)
          = some (cpu.to_masked b)) ∧
    (∀ (cpu : Till128.CPU) (p0 : String) (rest : List String) (s : String),
        toUpperAscii p0 ≠ "MOV" → toUpperAscii p0 ≠ "LOAD" →
        cpu.registers s = none →
        (cpu.executeParts (p0 :: rest)).2.registers s = none) := by
  refine ⟨fun cpu parts s w hw => Till128.keys_not_removed cpu parts s w hw,
    fun cpu r v rest b hv => ?_,
    fun cpu p0 rest s hmov hload hs => Till128.keys_not_added cpu p0 rest s hmov hload hs⟩
  rw [Till128.mov_inserts cpu r v rest b hv]
  show insertStore _ _ _ _ = _
  unfold insertStore
  rw [if_pos rfl]

/-- C8 amended witness: concrete instances of all three parts. -/
theorem c8_key_set_semantics_witness :
    (∃ w', ((Till128.CPU.new .Bit32 8 16).executeParts ["ADD", "R1", "5"]).2.registers
        "R1" = some w') ∧
    (((Till128.CPU.new .Bit32 8 16).executeParts ["MOV", "FOO", "5"]).2.registers
        (trimEndCommas "FOO") = some ((Till128.CPU.new .Bit32 8 16).to_masked 5)) ∧
    (((Till128.CPU.new .Bit32 8 16).executeParts ["ADD", "BAR", "5"]).2.registers
        "BAR" = none) :=
  ⟨c8_key_set_semantics.1 (Till128.CPU.new .Bit32 8 16) ["ADD", "R1", "5"] "R1" 0 (by decide),
   c8_key_set_semantics.2.1 (Till128.CPU.new .Bit32 8 16) "FOO" "5" [] 5 rfl,
   c8_key_set_semantics.2.2 (Till128.CPU.new .Bit32 8 16) "ADD" ["BAR", "5"] "BAR"
     (by decide) (by decide) (by decide)⟩

/-- C9 counterexample: the claim quantifies over every width `w ≥ 1`, but
at `w = 32` the i32 code cannot round-trip any magnitude: `mask(32)`
computes `1 << 32`, an i32 shift-amount overflow (a panic under checked
semantics; under release wrapping the mask degenerates to 0 and the
round-trip of 1 yields 0), so the composition never returns `v`. -/
theorem c9_roundtrip_counterexample :
    1 ≤ 32 ∧ 1 < 2 ^ 32 ∧
    (TwosComp.from_twos_complement (1 : Int) 32).bind
      (fun x => TwosComp.to_twos_complement x 32) = none := by
  refine ⟨by norm_num, by norm_num, ?_⟩
  have hneg : -((2 : Int) ^ 31) = Int.negSucc (2 ^ 31 - 1) := by decide
  have hland : Int.land 1 (-((2 : Int) ^ 31)) = 0 := by
    rw [hneg]
    show ((Nat.ldiff 1 (2 ^ 31 - 1) : Nat) : Int) = 0
    rw [TwosComp.ldiff_one_odd (2 ^ 31 - 1) (by norm_num)]
    rfl
  unfold TwosComp.from_twos_complement
  have h31 : i32Shl1 (32 - 1) = some (-((2 : Int) ^ 31)) := by decide
  rw [h31]
  show (if Int.land 1 (-((2 : Int) ^ 31)) ≠ 0 then _ else some 1).bind
      (fun x => TwosComp.to_twos_complement x 32) = none
  rw [if_neg (by rw [hland]; exact fun hcon => hcon rfl)]
  rfl

/-- C9 (amended): the two's-complement decode round-trips for `1 ≤ w ≤ 30`
and every magnitude `v` in `[0, 2 ^ w − 1]` — the widths whose i32
intermediates fit; for `w ≥ 31` the i32 `mask`/subtraction overflows
instead of producing a value. -/
theorem c9_roundtrip (w v : Nat) (hw : 1 ≤ w) (hw30 : w ≤ 30) (hv : v < 2 ^ w) :
    (TwosComp.from_twos_complement (v : Int) w).bind
      (fun x => TwosComp.to_twos_complement x w) = some (v : Int) := by
  have h0 : 0 < 2 ^ w := Nat.two_pow_pos w
  have hAB : ((2 ^ w : Nat) : Int) = (2 : Int) ^ w := by push_cast; ring
  have hA1 : ((2 ^ (w - 1) : Nat) : Int) = (2 : Int) ^ (w - 1) := by push_cast; ring
  have hmask : ((2 ^ w - 1 : Nat) : Int) = (2 : Int) ^ w - 1 := by
    rw [← hAB]; omega
  have hc : Int.land (v : Int) ((2 : Int) ^ (w - 1)) = ((v &&& 2 ^ (w - 1) : Nat) : Int) := by
    rw [← hA1]; rfl
  unfold TwosComp.from_twos_complement
  rw [TwosComp.i32Shl1_small (w - 1) (by omega)]
  simp only [hc]
  by_cases hbit : v &&& 2 ^ (w - 1) = 0
  · rw [if_neg (by simp [hbit])]
    show TwosComp.to_twos_complement (v : Int) w = _
    unfold TwosComp.to_twos_complement
    rw [TwosComp.mask_small w hw30]
    show some (Int.land (v : Int) ((2 : Int) ^ w - 1)) = _
    rw [← hmask]
    have hland : Int.land (v : Int) ((2 ^ w - 1 : Nat) : Int)
        = ((v &&& (2 ^ w - 1) : Nat) : Int) := rfl
    rw [hland, Nat.and_pow_two_sub_one_eq_mod, Nat.mod_eq_of_lt hv]
  · rw [if_pos (by simp [Int.natCast_eq_zero, hbit])]
    rw [TwosComp.i32Shl1_small w hw30]
    have hfit : i32Chk ((v : Int) - 2 ^ w) = some ((v : Int) - 2 ^ w) := by
      unfold i32Chk
      rw [if_pos]
      have hv' : (v : Int) < 2 ^ w := hAB ▸ Int.ofNat_lt.mpr hv
      have hwle : (2 : Int) ^ w ≤ 2 ^ 30 := pow_le_pow_right (by norm_num) hw30
      have : (2 : Int) ^ 30 < 2 ^ 31 := by norm_num
      constructor <;> omega
    show (i32Chk ((v : Int) - 2 ^ w)).bind (fun x => TwosComp.to_twos_complement x w) = _
    rw [hfit]
    show TwosComp.to_twos_complement ((v : Int) - 2 ^ w) w = _
    unfold TwosComp.to_twos_complement
    rw [TwosComp.mask_small w hw30]
    have hns : (v : Int) - 2 ^ w = Int.negSucc (2 ^ w - 1 - v) := by
      rw [Int.negSucc_eq, ← hAB]
      omega
    show some (Int.land ((v : Int) - 2 ^ w) ((2 : Int) ^ w - 1)) = _
    rw [hns, ← hmask]
    have hld : Int.land (Int.negSucc (2 ^ w - 1 - v)) ((2 ^ w - 1 : Nat) : Int)
        = ((Nat.ldiff (2 ^ w - 1) (2 ^ w - 1 - v) : Nat) : Int) := rfl
    rw [hld, TwosComp.ldiff_mask_sub w v hv]

/-- C9 witness: an 8-bit magnitude with the sign bit set round-trips
through the decode (200 decodes to −56 and re-masks to 200). -/
theorem c9_roundtrip_witness :
    1 ≤ 8 ∧ 8 ≤ 30 ∧ 200 < 2 ^ 8 ∧
    (TwosComp.from_twos_complement (200 : Int) 8).bind
      (fun x => TwosComp.to_twos_complement x 8) = some (200 : Int) :=
  ⟨by norm_num, by norm_num, by norm_num, c9_roundtrip 8 200 (by norm_num) (by norm_num) (by norm_num)⟩

/-- C10: construction initializes the flags to false and no operation ever
sets OVERFLOW or SIGN: after any sequence of instructions on either
engine, both flags are still `false` (only CARRY and ZERO are ever
updated). -/
theorem c10_overflow_sign_never_set :
    (∀ (bits : Till128.CpuWidth) (rc ms : Nat) (name : String), name ∈ flagNames →
        (Till128.CPU.new bits rc ms).flags name = some false) ∧
    (∀ (bits : Till128.CpuWidth) (rc ms : Nat) (lines : List String),
        (Till128.runProgram (Till128.CPU.new bits rc ms) lines).flags "OVERFLOW" = some false ∧
        (Till128.runProgram (Till128.CPU.new bits rc ms) lines).flags "SIGN" = some false) ∧
    (∀ (w : BrainOverflow.BOWidth) (rc ms : Nat) (prog : List BrainOverflow.Instr)
        (cpu' : BrainOverflow.BOCPU),
        BrainOverflow.run (BrainOverflow.BOCPU.new w rc ms) prog = some cpu' →
        cpu'.flags "OVERFLOW" = some false ∧ cpu'.flags "SIGN" = some false) := by
  refine ⟨fun bits rc ms name h => ?_, fun bits rc ms lines => ?_,
    fun w rc ms prog cpu' hrun => ?_⟩
  · unfold Till128.CPU.new
    dsimp
    rw [if_pos h]
  · exact Till128.runProgram_flags lines (Till128.CPU.new bits rc ms)
      (Till128.new_flags_ov bits rc ms) (Till128.new_flags_sg bits rc ms)
  · exact BrainOverflow.bo_run_flags prog _ cpu' hrun
      (BrainOverflow.bo_new_flags_ov w rc ms) (BrainOverflow.bo_new_flags_sg w rc ms)

/-- C10 witness: concrete flag values at construction and after a run. -/
theorem c10_overflow_sign_never_set_witness :
    ((Till128.CPU.new .Bit32 8 16).flags "ZERO" = some false) ∧
    ((BrainOverflow.BOCPU.new (.Custom 8) 4 4).flags "OVERFLOW" = some false ∧
     (BrainOverflow.BOCPU.new (.Custom 8) 4 4).flags "SIGN" = some false) :=
  ⟨c10_overflow_sign_never_set.1 .Bit32 8 16 "ZERO" (by decide),
   c10_overflow_sign_never_set.2.2 (.Custom 8) 4 4 []
     (BrainOverflow.BOCPU.new (.Custom 8) 4 4) rfl⟩

end OnBareMetal
